import Mathlib

/-!
Shallow embedding of the `fund_modelling` repository
(src/fund_models/date_utils.py and src/fund_models/fund_models.py).

Dates are modelled as unbounded (year, month, day) triples of integers,
mirroring Python `datetime.date` values; the calendar arithmetic of
`date_utils.py` is translated function by function.  Monetary amounts and
rates are modelled as rationals (`ℚ`): the source computes with IEEE
floats, and every claim under verification is an exact algebraic or
structural statement, so the rational model is the intended idealisation.
The two derived monthly rates `(1 + annual) ** (1/12) - 1` (properties
`irr_per_month` / `irr_hurdle_per_month` of the source class) are
irrational in general, so the fund record carries them directly as
rational fields abstracting those properties.

Python `dict` values keyed by dates are modelled as association lists in
insertion order, with `dict.update`/`dict.get` translated to
`dictUpdate`/`dictGet`.  Python code that can raise during schedule
generation (`ZeroDivisionError` from `/` and `%`, `max` of an empty
iterable, `None` propagating out of `dict.get`) is modelled with
`Option`; construction-time validation is modelled with an explicit
result type distinguishing `ClosedEndFundError` from `ZeroDivisionError`.
-/

/-- A calendar date `(year, month, day)` as carried by Python
`datetime.date`, with unbounded integer components. -/
structure Date where
  year : Int
  month : Int
  day : Int
deriving DecidableEq, Repr

/-- Python's `date < date` comparison: lexicographic on
(year, month, day). -/
def Date.lt (a b : Date) : Prop :=
  a.year < b.year ∨
    (a.year = b.year ∧
      (a.month < b.month ∨ (a.month = b.month ∧ a.day < b.day)))

instance (a b : Date) : Decidable (Date.lt a b) := by
  unfold Date.lt; exact inferInstance

/-- Python's `date <= date` comparison. -/
def Date.le (a b : Date) : Prop := Date.lt a b ∨ a = b

instance (a b : Date) : Decidable (Date.le a b) := by
  unfold Date.le; exact inferInstance

/-- `calendar.isleap` (used through `calendar.monthrange`): Gregorian
leap-year rule. -/
def isLeapYear (y : Int) : Bool :=
  (y.emod 4 == 0 && y.emod 100 != 0) || y.emod 400 == 0

/-- `calendar.monthrange(y, m)[1]`: the number of days in month `m` of
year `y`. -/
def daysInMonthYM (y m : Int) : Int :=
  if m = 2 then (if isLeapYear y then 29 else 28)
  else if m = 4 ∨ m = 6 ∨ m = 9 ∨ m = 11 then 30
  else 31

/-- `year_month_num` (date_utils.py line 6): year times 12 plus month. -/
def year_month_num (date : Date) : Int :=
  date.year * 12 + date.month

/-- The year part of the decoding of a year-month integer, shared by
`end_of_month_from_int` and `add_n_months` (the Python source duplicates
this `if`-block inline in both functions). -/
def ymIntYear (i : Int) : Int :=
  if i.emod 12 ≠ 0 then i.ediv 12 else i.ediv 12 - 1

/-- The month part of the decoding of a year-month integer (see
`ymIntYear`). -/
def ymIntMonth (i : Int) : Int :=
  if i.emod 12 ≠ 0 then i.emod 12 else 12

/-- `end_of_month_from_int` (date_utils.py line 20): last day of the
month encoded by `year_month_int`. -/
def end_of_month_from_int (year_month_int : Int) : Date :=
  { year := ymIntYear year_month_int
    month := ymIntMonth year_month_int
    day := daysInMonthYM (ymIntYear year_month_int) (ymIntMonth year_month_int) }

/-- `end_of_month_from_date` (date_utils.py line 12): last day of the
month of `date`. -/
def end_of_month_from_date (date : Date) : Date :=
  end_of_month_from_int (year_month_num date)

/-- `add_n_months` (date_utils.py line 34): a date incremented by
`num_months` monthly intervals; the `end_of_month` flag (default `true`)
selects snapping the result to its month-end. -/
def add_n_months (start_date : Date) (num_months : Int)
    (end_of_month : Bool := true) : Date :=
  let return_date_year_month_int := year_month_num start_date + num_months
  let return_date_year := ymIntYear return_date_year_month_int
  let return_date_month := ymIntMonth return_date_year_month_int
  let return_date_day :=
    min start_date.day (daysInMonthYM return_date_year return_date_month)
  let return_date : Date :=
    { year := return_date_year, month := return_date_month, day := return_date_day }
  if end_of_month then end_of_month_from_date return_date else return_date

/-- `number_of_months_diff` (date_utils.py line 60). -/
def number_of_months_diff (start_date end_date : Date) : Int :=
  year_month_num end_date - year_month_num start_date

/-- `generate_monthly_date_series` (date_utils.py line 67): month-end
dates for every month from `start_date`'s month to `end_date`'s month
inclusive (empty when the latter precedes the former, as Python's
`range`). -/
def generate_monthly_date_series (start_date end_date : Date) : List Date :=
  let month_diff := number_of_months_diff start_date end_date
  (List.range (month_diff + 1).toNat).map
    (fun (diff : ℕ) => end_of_month_from_int (year_month_num start_date + (diff : Int)))

/-- `days_in_month` (date_utils.py line 77). -/
def days_in_month (date : Date) : Int :=
  daysInMonthYM date.year date.month

/-- `days_in_year` (date_utils.py line 83).  Modelled from the date
subtraction `date(y+1,1,1) - date(y,1,1)`, whose day count is 366 in a
leap year and 365 otherwise. -/
def days_in_year (date : Date) : Int :=
  if isLeapYear date.year then 366 else 365

/-! Basic lemmas about the year-month encoding. -/

/-- Decoding a year-month integer and re-encoding it is the identity. -/
theorem ymIntYear_mul_add_month (i : Int) :
    ymIntYear i * 12 + ymIntMonth i = i := by
  have h1 : 12 * i.ediv 12 + i.emod 12 = i := Int.ediv_add_emod i 12
  have h2 : 0 ≤ i.emod 12 := Int.emod_nonneg i (by norm_num)
  have h3 : i.emod 12 < 12 := Int.emod_lt_of_pos i (by norm_num)
  unfold ymIntYear ymIntMonth
  by_cases h : i.emod 12 = 0 <;> simp [h] <;> omega

/-- The decoded month lies in `[1, 12]`. -/
theorem ymIntMonth_bounds (i : Int) :
    1 ≤ ymIntMonth i ∧ ymIntMonth i ≤ 12 := by
  have h2 : 0 ≤ i.emod 12 := Int.emod_nonneg i (by norm_num)
  have h3 : i.emod 12 < 12 := Int.emod_lt_of_pos i (by norm_num)
  unfold ymIntMonth
  by_cases h : i.emod 12 = 0
  · simp [h]
  · simp [h]; omega

/-- `year_month_num` of `end_of_month_from_int i` recovers `i`. -/
theorem year_month_num_end_of_month_from_int (i : Int) :
    year_month_num (end_of_month_from_int i) = i := by
  unfold year_month_num end_of_month_from_int
  exact ymIntYear_mul_add_month i

/-- `end_of_month_from_int` is injective. -/
theorem end_of_month_from_int_inj {i j : Int}
    (h : end_of_month_from_int i = end_of_month_from_int j) : i = j := by
  have := congrArg year_month_num h
  rwa [year_month_num_end_of_month_from_int,
    year_month_num_end_of_month_from_int] at this

/-- Month-end snapping is idempotent on `end_of_month_from_int`. -/
theorem end_of_month_from_date_end_of_month_from_int (i : Int) :
    end_of_month_from_date (end_of_month_from_int i) = end_of_month_from_int i := by
  unfold end_of_month_from_date
  rw [year_month_num_end_of_month_from_int]

/-- With the snap flag set, `add_n_months` is month-end of the shifted
year-month index, for any start date. -/
theorem add_n_months_true (d : Date) (n : Int) :
    add_n_months d n true = end_of_month_from_int (year_month_num d + n) := by
  unfold add_n_months end_of_month_from_date
  simp only [if_pos]
  unfold year_month_num
  rw [ymIntYear_mul_add_month]

/-- Date order on month-end values mirrors the order of their
year-month indices. -/
theorem end_of_month_from_int_lt_iff (i j : Int) :
    Date.lt (end_of_month_from_int i) (end_of_month_from_int j) ↔ i < j := by
  have hi := ymIntYear_mul_add_month i
  have hj := ymIntYear_mul_add_month j
  have hbi := ymIntMonth_bounds i
  have hbj := ymIntMonth_bounds j
  by_cases hij : i = j
  · subst hij
    unfold Date.lt
    simp only [end_of_month_from_int]
    omega
  · unfold Date.lt
    simp only [end_of_month_from_int]
    constructor
    · intro h
      rcases h with h | ⟨h1, h | ⟨h2, _⟩⟩ <;> omega
    · intro h
      omega

/-! Python `dict` keyed by dates, as an insertion-ordered association
list. -/

/-- A Python `dict[datetime.date, float]`, in insertion order. -/
abbrev DictD := List (Date × ℚ)

/-- Lookup of a key (`dict.get` without default / `dict[k]`). -/
def dlookup (k : Date) : DictD → Option ℚ
  | [] => none
  | p :: ps => if p.1 = k then some p.2 else dlookup k ps

/-- `dict.get(k, dflt)`. -/
def dictGet (m : DictD) (k : Date) (dflt : ℚ) : ℚ :=
  (dlookup k m).getD dflt

/-- `dict.update({k: v})`: replace in place when the key exists,
append otherwise. -/
def dictUpdate (m : DictD) (k : Date) (v : ℚ) : DictD :=
  if (dlookup k m).isSome then
    m.map (fun p => if p.1 = k then (k, v) else p)
  else
    m ++ [(k, v)]

/-- Python `max(iterable)` over dates: `none` on an empty iterable
(where Python raises `ValueError`). -/
def dateMax? (l : List Date) : Option Date :=
  l.foldl
    (fun acc d =>
      match acc with
      | none => some d
      | some a => if Date.lt a d then some d else some a)
    none

theorem dlookup_nil (k : Date) : dlookup k [] = none := rfl

theorem dlookup_append (k : Date) (m m' : DictD) :
    dlookup k (m ++ m') =
      match dlookup k m with
      | some v => some v
      | none => dlookup k m' := by
  induction m with
  | nil => simp [dlookup]
  | cons p ps ih =>
    by_cases h : p.1 = k <;> simp [dlookup, h, ih]

/-- Updating a fresh key appends the pair. -/
theorem dictUpdate_fresh (m : DictD) (k : Date) (v : ℚ)
    (h : dlookup k m = none) : dictUpdate m k v = m ++ [(k, v)] := by
  unfold dictUpdate
  simp [h]

/-! Maps built by a fold of `dictUpdate` over an injectively-keyed index
range: the shape of every schedule the engine produces. -/

/-- The dict `{κ 0: v 0, κ 1: v 1, ...}` with `t` entries. -/
def keyMapD (κ : ℕ → Date) (v : ℕ → ℚ) (t : ℕ) : DictD :=
  (List.range t).map (fun j => (κ j, v j))

theorem keyMapD_succ (κ : ℕ → Date) (v : ℕ → ℚ) (t : ℕ) :
    keyMapD κ v (t + 1) = keyMapD κ v t ++ [(κ t, v t)] := by
  unfold keyMapD
  rw [List.range_succ, List.map_append]
  rfl

/-- Lookup of an in-range key of a `keyMapD`. -/
theorem dlookup_keyMapD (κ : ℕ → Date) (v : ℕ → ℚ)
    (hinj : ∀ j j', κ j = κ j' → j = j') {t j : ℕ} (hj : j < t) :
    dlookup (κ j) (keyMapD κ v t) = some (v j) := by
  induction t with
  | zero => omega
  | succ t ih =>
    rw [keyMapD_succ, dlookup_append]
    by_cases hjt : j = t
    · subst hjt
      have hnone : dlookup (κ j) (keyMapD κ v j) = none := by
        clear ih hj
        have : ∀ s, s ≤ j → dlookup (κ j) (keyMapD κ v s) = none := by
          intro s hs
          induction s with
          | zero => rfl
          | succ s ihs =>
            rw [keyMapD_succ, dlookup_append, ihs (by omega)]
            have : κ s ≠ κ j := fun h => by have := hinj _ _ h; omega
            simp [dlookup, this]
        exact this j le_rfl
      rw [hnone]
      simp [dlookup]
    · rw [ih (by omega)]
  
/-- Lookup of an out-of-range key of a `keyMapD`. -/
theorem dlookup_keyMapD_none (κ : ℕ → Date) (v : ℕ → ℚ) {t : ℕ} {k : Date}
    (h : ∀ j, j < t → κ j ≠ k) :
    dlookup k (keyMapD κ v t) = none := by
  induction t with
  | zero => rfl
  | succ t ih =>
    rw [keyMapD_succ, dlookup_append, ih (fun j hj => h j (by omega))]
    have := h t (by omega)
    simp [dlookup, this]

/-- A fold of `dictUpdate` over fresh injective keys builds exactly the
corresponding `keyMapD`. -/
theorem foldl_dictUpdate_keyMapD (κ : ℕ → Date) (v : ℕ → ℚ)
    (hinj : ∀ j j', κ j = κ j' → j = j') (t : ℕ) :
    (List.range t).foldl (fun m j => dictUpdate m (κ j) (v j)) [] =
      keyMapD κ v t := by
  induction t with
  | zero => rfl
  | succ t ih =>
    rw [List.range_succ, List.foldl_append, ih]
    simp only [List.foldl_cons, List.foldl_nil]
    rw [dictUpdate_fresh _ _ _
      (dlookup_keyMapD_none κ v (fun j hj h => by have := hinj _ _ h; omega))]
    exact (keyMapD_succ κ v t).symm

/-! The fund cash-flow engine (src/fund_models/fund_models.py). -/

/-- Python `int(x)`: truncation toward zero of a true-division result. -/
def truncQ (q : ℚ) : Int := if 0 ≤ q then ⌊q⌋ else ⌈q⌉

/-- An immutable fund configuration as stored on a constructed
`ClosedEndFund` instance.  `irr_per_month` and `irr_hurdle_per_month`
abstract the source properties of the same names, which derive the
monthly effective rate `(1 + annual) ** (1/12) - 1` from the stored
annual rates (fund_models.py lines 86-98); the derived value is
irrational in general, so it is carried directly as a rational field. -/
structure ClosedEndFund where
  fund_name : String
  fund_start_date : Date
  deployment_start_date : Date
  irr_per_month : ℚ
  irr_hurdle_per_month : ℚ
  committed_capital : ℚ
  annual_mgmt_fee_rate : ℚ
  carry_percent : ℚ
  number_of_months_of_deployment : Int
  number_of_months_in_between_deployments : Int
  length_of_deployment_in_months : Int
  carry_catch_up : Bool
deriving DecidableEq, Repr

/-- The five distinct `ClosedEndFundError` messages raised by
`ClosedEndFund.__init__` (fund_models.py lines 42-63), one per validation
check, in source order. -/
inductive InitError where
  | deploymentStartBeforeFundStart
  | fundStartNotEndOfMonth
  | deploymentStartNotEndOfMonth
  | deploymentsNotWholeNumber
  | committedCapitalNotPositive
deriving DecidableEq, Repr

/-- Outcome of `ClosedEndFund.__init__`: a constructed instance, a
`ClosedEndFundError`, or the `ZeroDivisionError` escaping from the
divisibility check when the deployment interval is zero. -/
inductive InitResult where
  | ok (fund : ClosedEndFund)
  | configError (e : InitError)
  | zeroDivisionError
deriving DecidableEq, Repr

/-- `ClosedEndFund.__init__` (fund_models.py lines 27-77): the five
validation checks in source order against the caller-supplied values,
then storage of the fields with both start dates normalized to
month-end.  The `%` of the fourth check raises `ZeroDivisionError` when
the interval is zero. -/
def ClosedEndFund.init (fund_name : String)
    (fund_start_date deployment_start_date : Date)
    (annual_effective_irr_per_month committed_capital annual_mgmt_fee_rate
      carry_percent annual_effective_irr_hurdle_per_month : ℚ)
    (number_of_months_of_deployment : Int := 36)
    (number_of_months_in_between_deployments : Int := 3)
    (length_of_deployment_in_months : Int := 36)
    (carry_catch_up : Bool := true) : InitResult :=
  if Date.lt deployment_start_date fund_start_date then
    .configError .deploymentStartBeforeFundStart
  else if end_of_month_from_date fund_start_date ≠ fund_start_date then
    .configError .fundStartNotEndOfMonth
  else if end_of_month_from_date deployment_start_date ≠ deployment_start_date then
    .configError .deploymentStartNotEndOfMonth
  else if number_of_months_in_between_deployments = 0 then
    .zeroDivisionError
  else if number_of_months_of_deployment.emod number_of_months_in_between_deployments ≠ 0 then
    .configError .deploymentsNotWholeNumber
  else if committed_capital ≤ 0 then
    .configError .committedCapitalNotPositive
  else
    .ok
      { fund_name := fund_name
        fund_start_date := end_of_month_from_date fund_start_date
        deployment_start_date := end_of_month_from_date deployment_start_date
        irr_per_month := annual_effective_irr_per_month
        irr_hurdle_per_month := annual_effective_irr_hurdle_per_month
        committed_capital := committed_capital
        annual_mgmt_fee_rate := annual_mgmt_fee_rate
        carry_percent := carry_percent
        number_of_months_of_deployment := number_of_months_of_deployment
        number_of_months_in_between_deployments := number_of_months_in_between_deployments
        length_of_deployment_in_months := length_of_deployment_in_months
        carry_catch_up := carry_catch_up }

/-- `generate_deployments` (fund_models.py lines 100-117):
`number_of_deployments = int(months / interval)` deployments of
`committed_capital / number_of_deployments` each, every `interval`
months from the deployment start (the `add_n_months` call uses the
default `end_of_month=True`).  `none` models the `ZeroDivisionError`
raised when the interval is zero (true division) or when the number of
deployments is zero (amount per deployment). -/
def ClosedEndFund.generate_deployments (f : ClosedEndFund) : Option DictD :=
  if f.number_of_months_in_between_deployments = 0 then none
  else
    let number_of_deployments : Int :=
      truncQ ((f.number_of_months_of_deployment : ℚ) /
        (f.number_of_months_in_between_deployments : ℚ))
    if number_of_deployments = 0 then none
    else
      let amount_per_deployment : ℚ :=
        f.committed_capital / (number_of_deployments : ℚ)
      some ((List.range number_of_deployments.toNat).foldl
        (fun deployments (num : ℕ) =>
          dictUpdate deployments
            (add_n_months f.deployment_start_date
              ((num : Int) * f.number_of_months_in_between_deployments))
            amount_per_deployment)
        [])

/-- `generate_proceeds` (fund_models.py lines 119-140): each deployment
compounded over `length_of_deployment_in_months` periods at the monthly
rate and recorded `length_of_deployment_in_months` months later.
`npf.fv(rate, nper, pmt=0, pv=-value, when='end')` equals
`value * (1 + rate) ** nper`. -/
def ClosedEndFund.generate_proceeds (f : ClosedEndFund) : Option DictD := do
  let deployments ← f.generate_deployments
  some (deployments.foldl
    (fun proceeds p =>
      dictUpdate proceeds
        (add_n_months p.1 f.length_of_deployment_in_months)
        (p.2 * (1 + f.irr_per_month) ^ f.length_of_deployment_in_months))
    [])

/-- `generate_capital_returns` (fund_models.py lines 142-154): each
deployment amount recorded unchanged `length_of_deployment_in_months`
months later. -/
def ClosedEndFund.generate_capital_returns (f : ClosedEndFund) : Option DictD := do
  let deployments ← f.generate_deployments
  some (deployments.foldl
    (fun capital_returns p =>
      dictUpdate capital_returns
        (add_n_months p.1 f.length_of_deployment_in_months)
        p.2)
    [])

/-- `generate_profits` (fund_models.py lines 156-166): proceeds less
capital return per proceeds date; the inner `capital_returns.get(date)`
has no default, so a missing key propagates a failure (`None` reaching
the subtraction). -/
def ClosedEndFund.generate_profits (f : ClosedEndFund) : Option DictD := do
  let capital_returns ← f.generate_capital_returns
  let proceeds ← f.generate_proceeds
  proceeds.foldlM
    (fun profits p => do
      let cr ← dlookup p.1 capital_returns
      some (dictUpdate profits p.1 (p.2 - cr)))
    []

/-- The `monthly_date_series` property (fund_models.py lines 79-84):
month ends from the fund start date through the last capital-return
date; `max` of an empty dict raises, modelled by `none`. -/
def ClosedEndFund.monthly_date_series (f : ClosedEndFund) : Option (List Date) := do
  let capital_returns ← f.generate_capital_returns
  let last ← dateMax? (capital_returns.map Prod.fst)
  some (generate_monthly_date_series f.fund_start_date last)

/-- The eleven per-date schedules produced by
`generate_proceeds_allocations_as_dict` (fund_models.py lines 272-285). -/
structure WaterfallSchedules where
  lp_preferred_opening : DictD
  lp_preferred_irr_growth : DictD
  lp_preferred_payments : DictD
  lp_preferred_closing : DictD
  catch_up_opening : DictD
  catch_up_accruals : DictD
  catch_up_payments_gp_share : DictD
  catch_up_payments_lp_share : DictD
  catch_up_closing : DictD
  post_catch_up_payments_gp_share : DictD
  post_catch_up_payments_lp_share : DictD
deriving DecidableEq, Repr

/-- The empty state the waterfall loop starts from (eleven empty
dicts). -/
def emptyWS : WaterfallSchedules :=
  { lp_preferred_opening := []
    lp_preferred_irr_growth := []
    lp_preferred_payments := []
    lp_preferred_closing := []
    catch_up_opening := []
    catch_up_accruals := []
    catch_up_payments_gp_share := []
    catch_up_payments_lp_share := []
    catch_up_closing := []
    post_catch_up_payments_gp_share := []
    post_catch_up_payments_lp_share := []}

/-- The eleven values computed by one iteration of the waterfall loop
(fund_models.py lines 208-270), as functions of the date and the prior
period's two closing balances. -/
structure WRow where
  lp_opening : ℚ
  lp_growth : ℚ
  lp_payment : ℚ
  lp_closing : ℚ
  cu_opening : ℚ
  cu_accrual : ℚ
  cu_gp : ℚ
  cu_lp : ℚ
  cu_closing : ℚ
  post_gp : ℚ
  post_lp : ℚ
deriving DecidableEq, Repr

/-- One waterfall iteration's arithmetic (fund_models.py lines 208-270),
with the prior closing balances passed explicitly.  The source reads
them from the `lp_preferred_closing` / `catch_up_closing` dicts at
`add_n_months(date, -1)`; see `waterfallStepPure`. -/
def waterfallRow (f : ClosedEndFund) (deployments proceeds : DictD)
    (date : Date) (prior_lp_closing prior_cu_closing : ℚ) : WRow :=
  let proceed := dictGet proceeds date 0
  let lp_preferred_opening_balance := prior_lp_closing
  let lp_preferred_irr_growth_for_month :=
    lp_preferred_opening_balance * f.irr_hurdle_per_month
  let deployment := dictGet deployments date 0
  let lp_preferred_payment :=
    min proceed
      (lp_preferred_opening_balance + lp_preferred_irr_growth_for_month + deployment)
  let lp_preferred_closing_balance :=
    lp_preferred_opening_balance + lp_preferred_irr_growth_for_month + deployment -
      lp_preferred_payment
  let catch_up_opening_balance := prior_cu_closing
  let catch_up_accrual :=
    lp_preferred_irr_growth_for_month *
      (f.carry_percent / (1/2 - f.carry_percent) * (1/2)) *
      (if f.carry_catch_up then 1 else 0)
  if proceed > lp_preferred_payment then
    let catch_up_payment :=
      min ((catch_up_opening_balance + catch_up_accrual) / (1/2))
        (proceed - lp_preferred_payment)
    let catch_up_payment_gp_share := catch_up_payment * (1/2)
    let catch_up_payment_lp_share := catch_up_payment * (1/2)
    let catch_up_closing_balance :=
      catch_up_opening_balance + catch_up_accrual - catch_up_payment_gp_share
    if proceed > lp_preferred_payment + catch_up_payment then
      let post_catch_up_payment := proceed - lp_preferred_payment - catch_up_payment
      { lp_opening := lp_preferred_opening_balance
        lp_growth := lp_preferred_irr_growth_for_month
        lp_payment := lp_preferred_payment
        lp_closing := lp_preferred_closing_balance
        cu_opening := catch_up_opening_balance
        cu_accrual := catch_up_accrual
        cu_gp := catch_up_payment_gp_share
        cu_lp := catch_up_payment_lp_share
        cu_closing := catch_up_closing_balance
        post_gp := post_catch_up_payment * f.carry_percent
        post_lp := post_catch_up_payment * (1 - f.carry_percent) }
    else
      { lp_opening := lp_preferred_opening_balance
        lp_growth := lp_preferred_irr_growth_for_month
        lp_payment := lp_preferred_payment
        lp_closing := lp_preferred_closing_balance
        cu_opening := catch_up_opening_balance
        cu_accrual := catch_up_accrual
        cu_gp := catch_up_payment_gp_share
        cu_lp := catch_up_payment_lp_share
        cu_closing := catch_up_closing_balance
        post_gp := 0
        post_lp := 0 }
  else
    { lp_opening := lp_preferred_opening_balance
      lp_growth := lp_preferred_irr_growth_for_month
      lp_payment := lp_preferred_payment
      lp_closing := lp_preferred_closing_balance
      cu_opening := catch_up_opening_balance
      cu_accrual := catch_up_accrual
      cu_gp := 0
      cu_lp := 0
      cu_closing := catch_up_opening_balance + catch_up_accrual
      post_gp := 0
      post_lp := 0 }

/-- One iteration of the waterfall loop, updating the eleven schedule
dicts at `date`; prior balances are read from the closing dicts at
`add_n_months(date, -1)` with the source's default `end_of_month=True`. -/
def waterfallStepPure (f : ClosedEndFund) (deployments proceeds : DictD)
    (s : WaterfallSchedules) (date : Date) : WaterfallSchedules :=
  let r := waterfallRow f deployments proceeds date
    (dictGet s.lp_preferred_closing (add_n_months date (-1)) 0)
    (dictGet s.catch_up_closing (add_n_months date (-1)) 0)
  { lp_preferred_opening := dictUpdate s.lp_preferred_opening date r.lp_opening
    lp_preferred_irr_growth := dictUpdate s.lp_preferred_irr_growth date r.lp_growth
    lp_preferred_payments := dictUpdate s.lp_preferred_payments date r.lp_payment
    lp_preferred_closing := dictUpdate s.lp_preferred_closing date r.lp_closing
    catch_up_opening := dictUpdate s.catch_up_opening date r.cu_opening
    catch_up_accruals := dictUpdate s.catch_up_accruals date r.cu_accrual
    catch_up_payments_gp_share := dictUpdate s.catch_up_payments_gp_share date r.cu_gp
    catch_up_payments_lp_share := dictUpdate s.catch_up_payments_lp_share date r.cu_lp
    catch_up_closing := dictUpdate s.catch_up_closing date r.cu_closing
    post_catch_up_payments_gp_share :=
      dictUpdate s.post_catch_up_payments_gp_share date r.post_gp
    post_catch_up_payments_lp_share :=
      dictUpdate s.post_catch_up_payments_lp_share date r.post_lp }

/-- One iteration of the waterfall loop, including the failure of the
catch-up accrual's division `carry_percent / (0.5 - carry_percent)`,
which raises `ZeroDivisionError` exactly when `carry_percent == 0.5`
(the exception aborts the whole generation, discarding the local
dicts). -/
def waterfallStep (f : ClosedEndFund) (deployments proceeds : DictD)
    (s : WaterfallSchedules) (date : Date) : Option WaterfallSchedules :=
  if (1/2 : ℚ) - f.carry_percent = 0 then none
  else some (waterfallStepPure f deployments proceeds s date)

/-- `generate_proceeds_allocations_as_dict` (fund_models.py lines
174-287): the waterfall recurrence over the monthly date series in
chronological order. -/
def ClosedEndFund.generate_proceeds_allocations_as_dict (f : ClosedEndFund) :
    Option WaterfallSchedules := do
  let deployments ← f.generate_deployments
  let proceeds ← f.generate_proceeds
  let _capital_returns ← f.generate_capital_returns
  let series ← f.monthly_date_series
  series.foldlM (waterfallStep f deployments proceeds) emptyWS

/-- `generate_closing_invested_capital` (fund_models.py lines 289-307):
`closing[d] = closing[add_n_months(d, -1)].get-or-0 + deployment - capital_return`
over the monthly date series. -/
def ClosedEndFund.generate_closing_invested_capital (f : ClosedEndFund) :
    Option DictD := do
  let deployments ← f.generate_deployments
  let capital_returns ← f.generate_capital_returns
  let series ← f.monthly_date_series
  some (series.foldl
    (fun closing_invested_capital date =>
      dictUpdate closing_invested_capital date
        (dictGet closing_invested_capital (add_n_months date (-1)) 0 +
          dictGet deployments date 0 - dictGet capital_returns date 0))
    [])

/-- `generate_fee_paying_capital` (fund_models.py lines 309-328):
committed capital through the last deployment date, the closing
invested capital thereafter. -/
def ClosedEndFund.generate_fee_paying_capital (f : ClosedEndFund) :
    Option DictD := do
  let closing_invested_capital ← f.generate_closing_invested_capital
  let deployments ← f.generate_deployments
  let last_deployments ← dateMax? (deployments.map Prod.fst)
  let series ← f.monthly_date_series
  some (series.foldl
    (fun fee_paying_capital date =>
      dictUpdate fee_paying_capital date
        (if Date.le date last_deployments then f.committed_capital
         else dictGet closing_invested_capital date 0))
    [])

/-- `generate_mgmt_fees` (fund_models.py lines 330-355): actual/actual
day-count fee on committed capital through the last deployment date and
on closing invested capital thereafter. -/
def ClosedEndFund.generate_mgmt_fees (f : ClosedEndFund) : Option DictD := do
  let closing_invested_capital ← f.generate_closing_invested_capital
  let deployments ← f.generate_deployments
  let last_deployments ← dateMax? (deployments.map Prod.fst)
  let series ← f.monthly_date_series
  some (series.foldl
    (fun mgmt_fees date =>
      dictUpdate mgmt_fees date
        (if Date.le date last_deployments then
          f.committed_capital * f.annual_mgmt_fee_rate *
            (days_in_month date : ℚ) / (days_in_year date : ℚ)
         else
          dictGet closing_invested_capital date 0 * f.annual_mgmt_fee_rate *
            (days_in_month date : ℚ) / (days_in_year date : ℚ)))
    [])


/-! Accessors used in claim statements: each extracts the payload of a
generator that the accompanying hypotheses prove to be `some`. -/

/-- The monthly date series, `[]` when the generator fails. -/
def seriesOrNil (f : ClosedEndFund) : List Date :=
  (f.monthly_date_series).getD []

/-- The waterfall schedules, all-empty when the generator fails. -/
def waterfallOr (f : ClosedEndFund) : WaterfallSchedules :=
  (f.generate_proceeds_allocations_as_dict).getD emptyWS

/-- The proceeds schedule, `[]` when the generator fails. -/
def proceedsOr (f : ClosedEndFund) : DictD :=
  (f.generate_proceeds).getD []

/-- The deployments schedule, `[]` when the generator fails. -/
def deploymentsOr (f : ClosedEndFund) : DictD :=
  (f.generate_deployments).getD []

/-- The capital-returns schedule, `[]` when the generator fails. -/
def capitalReturnsOr (f : ClosedEndFund) : DictD :=
  (f.generate_capital_returns).getD []

/-- The closing-invested-capital schedule, `[]` when the generator
fails. -/
def civOr (f : ClosedEndFund) : DictD :=
  (f.generate_closing_invested_capital).getD []

/-- The five construction checks of `ClosedEndFund.__init__`, as they
hold on a successfully constructed instance (the fourth check is only
reachable when the interval is nonzero). -/
def ValidFund (f : ClosedEndFund) : Prop :=
  ¬ Date.lt f.deployment_start_date f.fund_start_date ∧
  end_of_month_from_date f.fund_start_date = f.fund_start_date ∧
  end_of_month_from_date f.deployment_start_date = f.deployment_start_date ∧
  f.number_of_months_in_between_deployments ≠ 0 ∧
  f.number_of_months_of_deployment.emod f.number_of_months_in_between_deployments = 0 ∧
  0 < f.committed_capital

instance (f : ClosedEndFund) : Decidable (ValidFund f) := by
  unfold ValidFund; exact inferInstance

/-- `int(months / interval)`, the number of deployments, as exact
integer division (they agree on validated configs; see
`truncQ_div_eq_ediv`). -/
def numDeployments (f : ClosedEndFund) : Int :=
  f.number_of_months_of_deployment.ediv f.number_of_months_in_between_deployments

/-- On exact divisions, Python's `int(a / b)` is integer division. -/
theorem truncQ_div_eq_ediv (a b : Int) (hb : b ≠ 0) (h : a.emod b = 0) :
    truncQ ((a : ℚ) / (b : ℚ)) = a.ediv b := by
  have hdvd : b ∣ a := Int.dvd_of_emod_eq_zero h
  have hmul : a.ediv b * b = a := Int.ediv_mul_cancel hdvd
  have hb' : (b : ℚ) ≠ 0 := by exact_mod_cast hb
  have hcast : (a : ℚ) / (b : ℚ) = ((a.ediv b : Int) : ℚ) := by
    rw [div_eq_iff hb']
    exact_mod_cast hmul.symm
  rw [hcast]
  unfold truncQ
  by_cases hq : (0 : ℚ) ≤ ((a.ediv b : Int) : ℚ) <;> simp [hq]

/-- The month-end series from index `base`, of length `L`: the shape of
every `generate_monthly_date_series` result. -/
def seriesList (base : Int) (L : ℕ) : List Date :=
  (List.range L).map (fun (k : ℕ) => end_of_month_from_int (base + (k : Int)))

theorem seriesList_succ (base : Int) (L : ℕ) :
    seriesList base (L + 1) =
      seriesList base L ++ [end_of_month_from_int (base + (L : Int))] := by
  unfold seriesList
  rw [List.range_succ, List.map_append]
  rfl

theorem generate_monthly_date_series_eq (s e : Date) :
    generate_monthly_date_series s e =
      seriesList (year_month_num s) ((number_of_months_diff s e + 1).toNat) := rfl

theorem seriesList_length (base : Int) (L : ℕ) : (seriesList base L).length = L := by
  unfold seriesList
  rw [List.length_map, List.length_range]

theorem mem_seriesList (base : Int) (L : ℕ) (d : Date) :
    d ∈ seriesList base L ↔
      ∃ k : ℕ, k < L ∧ d = end_of_month_from_int (base + (k : Int)) := by
  unfold seriesList
  simp only [List.mem_map, List.mem_range]
  constructor
  · rintro ⟨k, hk, rfl⟩; exact ⟨k, hk, rfl⟩
  · rintro ⟨k, hk, rfl⟩; exact ⟨k, hk, rfl⟩

/-- The characterization of `generate_deployments` on a config with a
positive whole number of deployments. -/
theorem generate_deployments_eq (f : ClosedEndFund)
    (hI : 0 < f.number_of_months_in_between_deployments)
    (hdvd : f.number_of_months_of_deployment.emod f.number_of_months_in_between_deployments = 0)
    (hM : 0 < f.number_of_months_of_deployment) :
    0 < numDeployments f ∧
    f.generate_deployments = some (keyMapD
      (fun k => end_of_month_from_int (year_month_num f.deployment_start_date +
        (k : Int) * f.number_of_months_in_between_deployments))
      (fun _ => f.committed_capital / (numDeployments f : ℚ))
      (numDeployments f).toNat) := by
  have hI0 : f.number_of_months_in_between_deployments ≠ 0 := ne_of_gt hI
  have htr : truncQ ((f.number_of_months_of_deployment : ℚ) /
      (f.number_of_months_in_between_deployments : ℚ)) = numDeployments f :=
    truncQ_div_eq_ediv _ _ hI0 hdvd
  have hmul : numDeployments f * f.number_of_months_in_between_deployments =
      f.number_of_months_of_deployment :=
    Int.ediv_mul_cancel (Int.dvd_of_emod_eq_zero hdvd)
  have hnd : 0 < numDeployments f := by
    by_contra hle
    push_neg at hle
    have : numDeployments f * f.number_of_months_in_between_deployments ≤ 0 :=
      mul_nonpos_of_nonpos_of_nonneg hle (le_of_lt hI)
    omega
  refine ⟨hnd, ?_⟩
  unfold ClosedEndFund.generate_deployments
  rw [if_neg hI0, htr, if_neg (by omega)]
  have hkey : ∀ num : ℕ,
      add_n_months f.deployment_start_date
          ((num : Int) * f.number_of_months_in_between_deployments) =
        end_of_month_from_int (year_month_num f.deployment_start_date +
          (num : Int) * f.number_of_months_in_between_deployments) :=
    fun num => add_n_months_true _ _
  simp only [hkey]
  refine congrArg some (foldl_dictUpdate_keyMapD _ _ ?_ _)
  intro j j' h
  have h2 := end_of_month_from_int_inj h
  have h3 : (j : Int) * f.number_of_months_in_between_deployments =
      (j' : Int) * f.number_of_months_in_between_deployments := by
    exact add_left_cancel h2
  have h4 : (j : Int) = (j' : Int) := mul_right_cancel₀ hI0 h3
  exact_mod_cast h4

/-- A fold of any dict-builder over a `keyMapD` is a fold over the index
range. -/
theorem keyMapD_foldl (κ : ℕ → Date) (v : ℕ → ℚ) (t : ℕ)
    (F : DictD → Date × ℚ → DictD) (init : DictD) :
    (keyMapD κ v t).foldl F init =
      (List.range t).foldl (fun m j => F m (κ j, v j)) init := by
  unfold keyMapD
  rw [List.foldl_map]

/-- The characterization of `generate_proceeds`. -/
theorem generate_proceeds_eq (f : ClosedEndFund)
    (hI : 0 < f.number_of_months_in_between_deployments)
    (hdvd : f.number_of_months_of_deployment.emod f.number_of_months_in_between_deployments = 0)
    (hM : 0 < f.number_of_months_of_deployment) :
    f.generate_proceeds = some (keyMapD
      (fun k => end_of_month_from_int (year_month_num f.deployment_start_date +
        (k : Int) * f.number_of_months_in_between_deployments +
        f.length_of_deployment_in_months))
      (fun _ => f.committed_capital / (numDeployments f : ℚ) *
        (1 + f.irr_per_month) ^ f.length_of_deployment_in_months)
      (numDeployments f).toNat) := by
  obtain ⟨hnd, hdep⟩ := generate_deployments_eq f hI hdvd hM
  unfold ClosedEndFund.generate_proceeds
  rw [hdep]
  show some _ = some _
  refine congrArg some ?_
  rw [keyMapD_foldl]
  have hkey : ∀ k : ℕ,
      add_n_months (end_of_month_from_int (year_month_num f.deployment_start_date +
          (k : Int) * f.number_of_months_in_between_deployments))
        f.length_of_deployment_in_months =
      end_of_month_from_int (year_month_num f.deployment_start_date +
        (k : Int) * f.number_of_months_in_between_deployments +
        f.length_of_deployment_in_months) := by
    intro k
    rw [add_n_months_true, year_month_num_end_of_month_from_int]
  simp only [hkey]
  refine foldl_dictUpdate_keyMapD _ _ ?_ _
  intro j j' h
  have h2 := end_of_month_from_int_inj h
  have h3 : (j : Int) * f.number_of_months_in_between_deployments =
      (j' : Int) * f.number_of_months_in_between_deployments := by omega
  have h4 : (j : Int) = (j' : Int) := mul_right_cancel₀ (ne_of_gt hI) h3
  exact_mod_cast h4

/-- The characterization of `generate_capital_returns`. -/
theorem generate_capital_returns_eq (f : ClosedEndFund)
    (hI : 0 < f.number_of_months_in_between_deployments)
    (hdvd : f.number_of_months_of_deployment.emod f.number_of_months_in_between_deployments = 0)
    (hM : 0 < f.number_of_months_of_deployment) :
    f.generate_capital_returns = some (keyMapD
      (fun k => end_of_month_from_int (year_month_num f.deployment_start_date +
        (k : Int) * f.number_of_months_in_between_deployments +
        f.length_of_deployment_in_months))
      (fun _ => f.committed_capital / (numDeployments f : ℚ))
      (numDeployments f).toNat) := by
  obtain ⟨hnd, hdep⟩ := generate_deployments_eq f hI hdvd hM
  unfold ClosedEndFund.generate_capital_returns
  rw [hdep]
  show some _ = some _
  refine congrArg some ?_
  rw [keyMapD_foldl]
  have hkey : ∀ k : ℕ,
      add_n_months (end_of_month_from_int (year_month_num f.deployment_start_date +
          (k : Int) * f.number_of_months_in_between_deployments))
        f.length_of_deployment_in_months =
      end_of_month_from_int (year_month_num f.deployment_start_date +
        (k : Int) * f.number_of_months_in_between_deployments +
        f.length_of_deployment_in_months) := by
    intro k
    rw [add_n_months_true, year_month_num_end_of_month_from_int]
  simp only [hkey]
  refine foldl_dictUpdate_keyMapD _ _ ?_ _
  intro j j' h
  have h2 := end_of_month_from_int_inj h
  have h3 : (j : Int) * f.number_of_months_in_between_deployments =
      (j' : Int) * f.number_of_months_in_between_deployments := by omega
  have h4 : (j : Int) = (j' : Int) := mul_right_cancel₀ (ne_of_gt hI) h3
  exact_mod_cast h4

theorem keyMapD_map_fst (κ : ℕ → Date) (v : ℕ → ℚ) (t : ℕ) :
    (keyMapD κ v t).map Prod.fst = (List.range t).map κ := by
  unfold keyMapD
  rw [List.map_map]
  rfl

theorem dateMax?_append_singleton (l : List Date) (d : Date) :
    dateMax? (l ++ [d]) =
      match dateMax? l with
      | none => some d
      | some a => if Date.lt a d then some d else some a := by
  unfold dateMax?
  rw [List.foldl_append]
  rfl

/-- Python `max` over the image of a strictly increasing month-end key
function picks the last key. -/
theorem dateMax?_strictMono (g : ℕ → Int) (hg : ∀ j j', j < j' → g j < g j') :
    ∀ t : ℕ, 0 < t →
      dateMax? ((List.range t).map (fun k => end_of_month_from_int (g k))) =
        some (end_of_month_from_int (g (t - 1))) := by
  intro t
  induction t with
  | zero => omega
  | succ t ih =>
    intro _
    rw [List.range_succ, List.map_append]
    simp only [List.map_cons, List.map_nil]
    rw [dateMax?_append_singleton]
    by_cases ht : 0 < t
    · rw [ih ht]
      have hlt : Date.lt (end_of_month_from_int (g (t - 1))) (end_of_month_from_int (g t)) :=
        (end_of_month_from_int_lt_iff _ _).mpr (hg _ _ (by omega))
      simp [hlt]
    · have ht0 : t = 0 := by omega
      subst ht0
      rfl

/-- Shape of the monthly date series on a config with a positive whole
number of deployments: a contiguous month-end series starting at the
fund start date's month. -/
theorem monthly_date_series_shape (f : ClosedEndFund)
    (hI : 0 < f.number_of_months_in_between_deployments)
    (hdvd : f.number_of_months_of_deployment.emod f.number_of_months_in_between_deployments = 0)
    (hM : 0 < f.number_of_months_of_deployment) :
    ∃ L : ℕ, f.monthly_date_series = some (seriesList (year_month_num f.fund_start_date) L) ∧
      L = (year_month_num f.deployment_start_date +
        (((numDeployments f).toNat - 1 : ℕ) : Int) * f.number_of_months_in_between_deployments +
        f.length_of_deployment_in_months - year_month_num f.fund_start_date + 1).toNat := by
  obtain ⟨hnd, _⟩ := generate_deployments_eq f hI hdvd hM
  have hcr := generate_capital_returns_eq f hI hdvd hM
  refine ⟨_, ?_, rfl⟩
  unfold ClosedEndFund.monthly_date_series
  rw [hcr]
  show (dateMax? _).bind _ = _
  rw [keyMapD_map_fst]
  rw [dateMax?_strictMono
    (fun k => year_month_num f.deployment_start_date +
      (k : Int) * f.number_of_months_in_between_deployments +
      f.length_of_deployment_in_months)
    (fun j j' hjj => by
      dsimp only
      have : (j : Int) * f.number_of_months_in_between_deployments <
          (j' : Int) * f.number_of_months_in_between_deployments :=
        mul_lt_mul_of_pos_right (by exact_mod_cast hjj) hI
      omega)
    _ (by omega)]
  show some _ = some _
  refine congrArg some ?_
  rw [generate_monthly_date_series_eq]
  unfold number_of_months_diff
  rw [year_month_num_end_of_month_from_int]

/-- Injectivity of the contiguous month-end key function. -/
theorem eom_base_add_inj (base : Int) (j j' : ℕ)
    (h : end_of_month_from_int (base + (j : Int)) =
      end_of_month_from_int (base + (j' : Int))) : j = j' := by
  have := end_of_month_from_int_inj h
  omega

/-- Lookup of the `i`-th key in a contiguous month-end `keyMapD`. -/
theorem dictGet_keyMapD_at (base : Int) (v : ℕ → ℚ) {L j : ℕ} (hj : j < L) :
    dictGet (keyMapD (fun k => end_of_month_from_int (base + (k : Int))) v L)
      (end_of_month_from_int (base + (j : Int))) 0 = v j := by
  unfold dictGet
  rw [dlookup_keyMapD _ _ (eom_base_add_inj base) hj]
  rfl

/-- The prior-period lookup `m.get(add_n_months(date, -1), 0)` against
the schedule built so far: the previous entry's value, or `0` at the
series head. -/
theorem dictGet_prev (base : Int) (v : ℕ → ℚ) (L : ℕ) :
    dictGet (keyMapD (fun k => end_of_month_from_int (base + (k : Int))) v L)
      (add_n_months (end_of_month_from_int (base + (L : Int))) (-1)) 0 =
      match L with
      | 0 => 0
      | t + 1 => v t := by
  rw [add_n_months_true, year_month_num_end_of_month_from_int]
  cases L with
  | zero => rfl
  | succ t =>
    have hkey : base + ((t + 1 : ℕ) : Int) + (-1) = base + (t : Int) := by push_cast; ring
    rw [hkey]
    exact dictGet_keyMapD_at base v (by omega)

/-- Appending the next entry to a contiguous month-end `keyMapD`. -/
theorem dictUpdate_keyMapD_last (base : Int) (v : ℕ → ℚ) (L : ℕ) (x : ℚ)
    (hx : x = v L) :
    dictUpdate (keyMapD (fun k => end_of_month_from_int (base + (k : Int))) v L)
      (end_of_month_from_int (base + (L : Int))) x =
      keyMapD (fun k => end_of_month_from_int (base + (k : Int))) v (L + 1) := by
  rw [dictUpdate_fresh _ _ _
    (dlookup_keyMapD_none _ _ (fun j hj h => by
      have := eom_base_add_inj base j L h
      omega))]
  rw [hx, keyMapD_succ]

/-- The closing-invested-capital recurrence values, indexed by position
in the monthly date series. -/
def civVal (dep cr : DictD) (base : Int) : ℕ → ℚ
  | 0 => dictGet dep (end_of_month_from_int (base + ((0 : ℕ) : Int))) 0 -
      dictGet cr (end_of_month_from_int (base + ((0 : ℕ) : Int))) 0
  | t + 1 => civVal dep cr base t +
      dictGet dep (end_of_month_from_int (base + ((t + 1 : ℕ) : Int))) 0 -
      dictGet cr (end_of_month_from_int (base + ((t + 1 : ℕ) : Int))) 0

/-- The closing-invested-capital loop builds exactly the recurrence
table `civVal`. -/
theorem civ_foldl (dep cr : DictD) (base : Int) (L : ℕ) :
    (seriesList base L).foldl
      (fun closing_invested_capital date =>
        dictUpdate closing_invested_capital date
          (dictGet closing_invested_capital (add_n_months date (-1)) 0 +
            dictGet dep date 0 - dictGet cr date 0)) [] =
      keyMapD (fun k => end_of_month_from_int (base + (k : Int)))
        (civVal dep cr base) L := by
  induction L with
  | zero => rfl
  | succ L ih =>
    rw [seriesList_succ, List.foldl_append, List.foldl_cons, List.foldl_nil, ih]
    rw [dictGet_prev]
    refine dictUpdate_keyMapD_last base _ L _ ?_
    cases L with
    | zero =>
      show 0 + _ - _ = civVal dep cr base 0
      rw [civVal]
      ring
    | succ t =>
      show civVal dep cr base t + _ - _ = civVal dep cr base (t + 1)
      rw [civVal]

/-- Full characterization of `generate_closing_invested_capital` on a
config with a positive whole number of deployments. -/
theorem generate_closing_invested_capital_eq (f : ClosedEndFund)
    (hI : 0 < f.number_of_months_in_between_deployments)
    (hdvd : f.number_of_months_of_deployment.emod f.number_of_months_in_between_deployments = 0)
    (hM : 0 < f.number_of_months_of_deployment) :
    ∃ (dep cr : DictD) (L : ℕ),
      f.generate_deployments = some dep ∧
      f.generate_capital_returns = some cr ∧
      f.monthly_date_series = some (seriesList (year_month_num f.fund_start_date) L) ∧
      f.generate_closing_invested_capital = some
        (keyMapD (fun k => end_of_month_from_int (year_month_num f.fund_start_date + (k : Int)))
          (civVal dep cr (year_month_num f.fund_start_date)) L) := by
  obtain ⟨hnd, hdep⟩ := generate_deployments_eq f hI hdvd hM
  have hcr := generate_capital_returns_eq f hI hdvd hM
  obtain ⟨L, hser, _⟩ := monthly_date_series_shape f hI hdvd hM
  refine ⟨_, _, L, hdep, hcr, hser, ?_⟩
  unfold ClosedEndFund.generate_closing_invested_capital
  rw [hdep, hcr, hser]
  show some _ = some _
  exact congrArg some (civ_foldl _ _ _ L)

/-- The waterfall state machine's row at each position of the monthly
date series: position `t`'s row is computed at the `t`-th series date
from the previous row's two closing balances (`0, 0` at the head). -/
def rowAt (f : ClosedEndFund) (dep prc : DictD) (base : Int) : ℕ → WRow
  | 0 => waterfallRow f dep prc (end_of_month_from_int (base + ((0 : ℕ) : Int))) 0 0
  | t + 1 => waterfallRow f dep prc (end_of_month_from_int (base + ((t + 1 : ℕ) : Int)))
      (rowAt f dep prc base t).lp_closing (rowAt f dep prc base t).cu_closing

/-- The waterfall schedules after `L` loop iterations: eleven parallel
tables of the `rowAt` values. -/
def wsAt (f : ClosedEndFund) (dep prc : DictD) (base : Int) (L : ℕ) :
    WaterfallSchedules where
  lp_preferred_opening := keyMapD (fun k => end_of_month_from_int (base + (k : Int)))
    (fun j => (rowAt f dep prc base j).lp_opening) L
  lp_preferred_irr_growth := keyMapD (fun k => end_of_month_from_int (base + (k : Int)))
    (fun j => (rowAt f dep prc base j).lp_growth) L
  lp_preferred_payments := keyMapD (fun k => end_of_month_from_int (base + (k : Int)))
    (fun j => (rowAt f dep prc base j).lp_payment) L
  lp_preferred_closing := keyMapD (fun k => end_of_month_from_int (base + (k : Int)))
    (fun j => (rowAt f dep prc base j).lp_closing) L
  catch_up_opening := keyMapD (fun k => end_of_month_from_int (base + (k : Int)))
    (fun j => (rowAt f dep prc base j).cu_opening) L
  catch_up_accruals := keyMapD (fun k => end_of_month_from_int (base + (k : Int)))
    (fun j => (rowAt f dep prc base j).cu_accrual) L
  catch_up_payments_gp_share := keyMapD (fun k => end_of_month_from_int (base + (k : Int)))
    (fun j => (rowAt f dep prc base j).cu_gp) L
  catch_up_payments_lp_share := keyMapD (fun k => end_of_month_from_int (base + (k : Int)))
    (fun j => (rowAt f dep prc base j).cu_lp) L
  catch_up_closing := keyMapD (fun k => end_of_month_from_int (base + (k : Int)))
    (fun j => (rowAt f dep prc base j).cu_closing) L
  post_catch_up_payments_gp_share := keyMapD (fun k => end_of_month_from_int (base + (k : Int)))
    (fun j => (rowAt f dep prc base j).post_gp) L
  post_catch_up_payments_lp_share := keyMapD (fun k => end_of_month_from_int (base + (k : Int)))
    (fun j => (rowAt f dep prc base j).post_lp) L

/-- The pure waterfall loop builds exactly the `rowAt` tables. -/
theorem waterfall_foldl (f : ClosedEndFund) (dep prc : DictD) (base : Int) (L : ℕ) :
    (seriesList base L).foldl (waterfallStepPure f dep prc) emptyWS =
      wsAt f dep prc base L := by
  induction L with
  | zero => rfl
  | succ L ih =>
    rw [seriesList_succ, List.foldl_append, List.foldl_cons, List.foldl_nil, ih]
    show waterfallStepPure f dep prc (wsAt f dep prc base L)
      (end_of_month_from_int (base + (L : Int))) = wsAt f dep prc base (L + 1)
    unfold waterfallStepPure
    have hrow : waterfallRow f dep prc (end_of_month_from_int (base + (L : Int)))
        (dictGet (wsAt f dep prc base L).lp_preferred_closing
          (add_n_months (end_of_month_from_int (base + (L : Int))) (-1)) 0)
        (dictGet (wsAt f dep prc base L).catch_up_closing
          (add_n_months (end_of_month_from_int (base + (L : Int))) (-1)) 0) =
        rowAt f dep prc base L := by
      show waterfallRow f dep prc _
        (dictGet (keyMapD _ _ L) _ 0) (dictGet (keyMapD _ _ L) _ 0) = _
      rw [dictGet_prev, dictGet_prev]
      cases L with
      | zero => rfl
      | succ t => rfl
    rw [hrow]
    show WaterfallSchedules.mk _ _ _ _ _ _ _ _ _ _ _ = WaterfallSchedules.mk _ _ _ _ _ _ _ _ _ _ _
    simp only [WaterfallSchedules.mk.injEq]
    refine ⟨?_, ?_, ?_, ?_, ?_, ?_, ?_, ?_, ?_, ?_, ?_⟩ <;>
      exact dictUpdate_keyMapD_last base _ L _ rfl

/-- When the carry percentage is not one half, the effectful waterfall
loop is the pure one. -/
theorem foldlM_waterfallStep_eq (f : ClosedEndFund) (dep prc : DictD)
    (hc : f.carry_percent ≠ 1/2) (l : List Date) :
    ∀ s : WaterfallSchedules,
      l.foldlM (waterfallStep f dep prc) s =
        some (l.foldl (waterfallStepPure f dep prc) s) := by
  have hne : (1/2 : ℚ) - f.carry_percent ≠ 0 := by
    intro h
    exact hc (by linarith)
  induction l with
  | nil => intro s; rfl
  | cons d ds ih =>
    intro s
    rw [List.foldlM_cons, List.foldl_cons]
    unfold waterfallStep
    rw [if_neg hne]
    show (ds.foldlM (waterfallStep f dep prc) _) = _
    exact ih _

/-- When the carry percentage is one half, the first waterfall
iteration already fails. -/
theorem foldlM_waterfallStep_none (f : ClosedEndFund) (dep prc : DictD)
    (hc : f.carry_percent = 1/2) (d : Date) (ds : List Date)
    (s : WaterfallSchedules) :
    (d :: ds).foldlM (waterfallStep f dep prc) s = none := by
  rw [List.foldlM_cons]
  unfold waterfallStep
  rw [if_pos (by rw [hc]; ring)]
  rfl

/-- Full characterization of `generate_proceeds_allocations_as_dict` on
a config with a positive whole number of deployments and a carry away
from one half. -/
theorem waterfall_eq (f : ClosedEndFund)
    (hI : 0 < f.number_of_months_in_between_deployments)
    (hdvd : f.number_of_months_of_deployment.emod f.number_of_months_in_between_deployments = 0)
    (hM : 0 < f.number_of_months_of_deployment)
    (hc : f.carry_percent ≠ 1/2) :
    ∃ (dep prc : DictD) (L : ℕ),
      f.generate_deployments = some dep ∧
      f.generate_proceeds = some prc ∧
      f.monthly_date_series = some (seriesList (year_month_num f.fund_start_date) L) ∧
      f.generate_proceeds_allocations_as_dict =
        some (wsAt f dep prc (year_month_num f.fund_start_date) L) := by
  obtain ⟨hnd, hdep⟩ := generate_deployments_eq f hI hdvd hM
  have hprc := generate_proceeds_eq f hI hdvd hM
  have hcr := generate_capital_returns_eq f hI hdvd hM
  obtain ⟨L, hser, _⟩ := monthly_date_series_shape f hI hdvd hM
  refine ⟨_, _, L, hdep, hprc, hser, ?_⟩
  unfold ClosedEndFund.generate_proceeds_allocations_as_dict
  rw [hdep, hprc, hcr, hser]
  show (seriesList (year_month_num f.fund_start_date) L).foldlM
    (waterfallStep f _ _) emptyWS = _
  rw [foldlM_waterfallStep_eq f _ _ hc, waterfall_foldl]

/-- In every waterfall row, the five payment fields sum to that date's
proceeds. -/
theorem waterfallRow_payments_sum (f : ClosedEndFund) (dep prc : DictD)
    (d : Date) (pl pc : ℚ) :
    (waterfallRow f dep prc d pl pc).lp_payment +
      (waterfallRow f dep prc d pl pc).cu_gp +
      (waterfallRow f dep prc d pl pc).cu_lp +
      (waterfallRow f dep prc d pl pc).post_gp +
      (waterfallRow f dep prc d pl pc).post_lp = dictGet prc d 0 := by
  unfold waterfallRow
  dsimp only
  set p := dictGet prc d 0 with hp
  set dl := dictGet dep d 0 with hdl
  set due := pl + pl * f.irr_hurdle_per_month + dl with hdue
  set lpp := min p due with hlpp
  set acc := pl * f.irr_hurdle_per_month *
    (f.carry_percent / (1/2 - f.carry_percent) * (1/2)) *
    (if f.carry_catch_up then 1 else 0) with hacc
  set cup := min ((pc + acc) / (1/2)) (p - lpp) with hcup
  split_ifs with h1 h2
  · dsimp only
    ring
  · dsimp only
    have h3 : cup ≤ p - lpp := min_le_right _ _
    push_neg at h2
    linarith
  · dsimp only
    have h3 : lpp ≤ p := min_le_left _ _
    push_neg at h1
    linarith

/-- In every waterfall row, the LP-preferred closing balance is
nonnegative. -/
theorem waterfallRow_lp_closing_nonneg (f : ClosedEndFund) (dep prc : DictD)
    (d : Date) (pl pc : ℚ) :
    0 ≤ (waterfallRow f dep prc d pl pc).lp_closing := by
  unfold waterfallRow
  dsimp only
  set p := dictGet prc d 0 with hp
  set dl := dictGet dep d 0 with hdl
  set due := pl + pl * f.irr_hurdle_per_month + dl with hdue
  have h3 : min p due ≤ due := min_le_right _ _
  split_ifs <;> dsimp only <;> linarith

/-- In every waterfall row, the opening LP balance is the prior closing
balance passed in. -/
theorem waterfallRow_lp_opening (f : ClosedEndFund) (dep prc : DictD)
    (d : Date) (pl pc : ℚ) :
    (waterfallRow f dep prc d pl pc).lp_opening = pl := by
  unfold waterfallRow
  dsimp only
  split_ifs <;> rfl

/-- The catch-up closing-balance dichotomy of the waterfall row: with a
surplus, only the GP half of the catch-up payment reduces the tracked
balance; without one, the balance purely accrues and all four payment
fields are zero. -/
theorem waterfallRow_catchup (f : ClosedEndFund) (dep prc : DictD)
    (d : Date) (pl pc : ℚ) :
    (dictGet prc d 0 > (waterfallRow f dep prc d pl pc).lp_payment →
      (waterfallRow f dep prc d pl pc).cu_closing =
        (waterfallRow f dep prc d pl pc).cu_opening +
          (waterfallRow f dep prc d pl pc).cu_accrual -
          (waterfallRow f dep prc d pl pc).cu_gp) ∧
    (¬ dictGet prc d 0 > (waterfallRow f dep prc d pl pc).lp_payment →
      (waterfallRow f dep prc d pl pc).cu_closing =
        (waterfallRow f dep prc d pl pc).cu_opening +
          (waterfallRow f dep prc d pl pc).cu_accrual ∧
      (waterfallRow f dep prc d pl pc).cu_gp = 0 ∧
      (waterfallRow f dep prc d pl pc).cu_lp = 0 ∧
      (waterfallRow f dep prc d pl pc).post_gp = 0 ∧
      (waterfallRow f dep prc d pl pc).post_lp = 0) := by
  unfold waterfallRow
  dsimp only
  set p := dictGet prc d 0 with hp
  set dl := dictGet dep d 0 with hdl
  set due := pl + pl * f.irr_hurdle_per_month + dl with hdue
  set lpp := min p due with hlpp
  set acc := pl * f.irr_hurdle_per_month *
    (f.carry_percent / (1/2 - f.carry_percent) * (1/2)) *
    (if f.carry_catch_up then 1 else 0) with hacc
  set cup := min ((pc + acc) / (1/2)) (p - lpp) with hcup
  split_ifs with h1 h2 <;> dsimp only
  · exact ⟨fun _ => by ring, fun h => absurd h1 h⟩
  · exact ⟨fun _ => by ring, fun h => absurd h1 h⟩
  · exact ⟨fun h => absurd h h1, fun _ => ⟨rfl, rfl, rfl, rfl, rfl⟩⟩

/-- A profits fold succeeds when every proceeds key is present in the
capital-returns dict. -/
theorem foldlM_profits_total (crD : DictD) :
    ∀ (l : List (Date × ℚ)) (init : DictD),
      (∀ p ∈ l, (dlookup p.1 crD).isSome) →
      ∃ P, l.foldlM
        (fun profits p => do
          let cr ← dlookup p.1 crD
          some (dictUpdate profits p.1 (p.2 - cr))) init = some P := by
  intro l
  induction l with
  | nil => exact fun init _ => ⟨init, rfl⟩
  | cons q qs ih =>
    intro init h
    have hq := h q (List.mem_cons_self q qs)
    obtain ⟨x, hx⟩ := Option.isSome_iff_exists.mp hq
    obtain ⟨P, hP⟩ := ih (dictUpdate init q.1 (q.2 - x))
      (fun p hp => h p (List.mem_cons_of_mem q hp))
    refine ⟨P, ?_⟩
    rw [List.foldlM_cons, hx]
    exact hP

/-- `generate_profits` succeeds on a config with a positive whole
number of deployments. -/
theorem generate_profits_isSome (f : ClosedEndFund)
    (hI : 0 < f.number_of_months_in_between_deployments)
    (hdvd : f.number_of_months_of_deployment.emod f.number_of_months_in_between_deployments = 0)
    (hM : 0 < f.number_of_months_of_deployment) :
    ∃ P, f.generate_profits = some P := by
  have hprc := generate_proceeds_eq f hI hdvd hM
  have hcr := generate_capital_returns_eq f hI hdvd hM
  have hmem : ∀ p ∈ keyMapD
      (fun k => end_of_month_from_int (year_month_num f.deployment_start_date +
        (k : Int) * f.number_of_months_in_between_deployments +
        f.length_of_deployment_in_months))
      (fun _ => f.committed_capital / (numDeployments f : ℚ) *
        (1 + f.irr_per_month) ^ f.length_of_deployment_in_months)
      (numDeployments f).toNat,
      (dlookup p.1 (keyMapD
        (fun k => end_of_month_from_int (year_month_num f.deployment_start_date +
          (k : Int) * f.number_of_months_in_between_deployments +
          f.length_of_deployment_in_months))
        (fun _ => f.committed_capital / (numDeployments f : ℚ))
        (numDeployments f).toNat)).isSome := by
    intro p hp
    unfold keyMapD at hp
    rw [List.mem_map] at hp
    obtain ⟨j, hj, rfl⟩ := hp
    rw [List.mem_range] at hj
    dsimp only
    rw [dlookup_keyMapD
      (fun k : ℕ => end_of_month_from_int (year_month_num f.deployment_start_date +
        (k : Int) * f.number_of_months_in_between_deployments +
        f.length_of_deployment_in_months))
      (fun _ => f.committed_capital / (numDeployments f : ℚ))
      (fun a a' h => by
        have h2 := end_of_month_from_int_inj h
        have h3 : (a : Int) * f.number_of_months_in_between_deployments =
            (a' : Int) * f.number_of_months_in_between_deployments := by omega
        have h4 := mul_right_cancel₀ (ne_of_gt hI) h3
        exact_mod_cast h4) hj]
    rfl
  obtain ⟨P, hP⟩ := foldlM_profits_total _ _ [] hmem
  refine ⟨P, ?_⟩
  unfold ClosedEndFund.generate_profits
  rw [hprc, hcr]
  exact hP

/-- On an ordered, month-end-normalized config with nonnegative
deployment length, the monthly date series is nonempty. -/
theorem monthly_date_series_pos (f : ClosedEndFund)
    (hI : 0 < f.number_of_months_in_between_deployments)
    (hdvd : f.number_of_months_of_deployment.emod f.number_of_months_in_between_deployments = 0)
    (hM : 0 < f.number_of_months_of_deployment)
    (hord : ¬ Date.lt f.deployment_start_date f.fund_start_date)
    (heomf : end_of_month_from_date f.fund_start_date = f.fund_start_date)
    (heomd : end_of_month_from_date f.deployment_start_date = f.deployment_start_date)
    (hL : 0 ≤ f.length_of_deployment_in_months) :
    ∃ L : ℕ, f.monthly_date_series = some (seriesList (year_month_num f.fund_start_date) L) ∧
      0 < L := by
  obtain ⟨L, hser, hLeq⟩ := monthly_date_series_shape f hI hdvd hM
  refine ⟨L, hser, ?_⟩
  have hord2 : ¬ year_month_num f.deployment_start_date < year_month_num f.fund_start_date := by
    intro hlt
    apply hord
    unfold end_of_month_from_date at heomf heomd
    rw [← heomd, ← heomf]
    exact (end_of_month_from_int_lt_iff _ _).mpr hlt
  have hmul : 0 ≤ ((((numDeployments f).toNat - 1 : ℕ)) : Int) *
      f.number_of_months_in_between_deployments :=
    mul_nonneg (Int.natCast_nonneg _) (le_of_lt hI)
  omega

/-- `generate_fee_paying_capital` succeeds on a config with a positive
whole number of deployments. -/
theorem generate_fee_paying_isSome (f : ClosedEndFund)
    (hI : 0 < f.number_of_months_in_between_deployments)
    (hdvd : f.number_of_months_of_deployment.emod f.number_of_months_in_between_deployments = 0)
    (hM : 0 < f.number_of_months_of_deployment) :
    (f.generate_fee_paying_capital).isSome := by
  obtain ⟨hnd, hdep⟩ := generate_deployments_eq f hI hdvd hM
  obtain ⟨dep, cr, L, hdep', hcr', hser, hciv⟩ :=
    generate_closing_invested_capital_eq f hI hdvd hM
  unfold ClosedEndFund.generate_fee_paying_capital
  rw [hciv, hdep, hser]
  show (Option.bind (dateMax? _) _).isSome = true
  rw [keyMapD_map_fst]
  rw [dateMax?_strictMono
    (fun k => year_month_num f.deployment_start_date +
      (k : Int) * f.number_of_months_in_between_deployments)
    (fun j j' hjj => by
      dsimp only
      have : (j : Int) * f.number_of_months_in_between_deployments <
          (j' : Int) * f.number_of_months_in_between_deployments :=
        mul_lt_mul_of_pos_right (by exact_mod_cast hjj) hI
      omega)
    _ (by omega)]
  rfl

/-- `generate_mgmt_fees` succeeds on a config with a positive whole
number of deployments. -/
theorem generate_mgmt_fees_isSome (f : ClosedEndFund)
    (hI : 0 < f.number_of_months_in_between_deployments)
    (hdvd : f.number_of_months_of_deployment.emod f.number_of_months_in_between_deployments = 0)
    (hM : 0 < f.number_of_months_of_deployment) :
    (f.generate_mgmt_fees).isSome := by
  obtain ⟨hnd, hdep⟩ := generate_deployments_eq f hI hdvd hM
  obtain ⟨dep, cr, L, hdep', hcr', hser, hciv⟩ :=
    generate_closing_invested_capital_eq f hI hdvd hM
  unfold ClosedEndFund.generate_mgmt_fees
  rw [hciv, hdep, hser]
  show (Option.bind (dateMax? _) _).isSome = true
  rw [keyMapD_map_fst]
  rw [dateMax?_strictMono
    (fun k => year_month_num f.deployment_start_date +
      (k : Int) * f.number_of_months_in_between_deployments)
    (fun j j' hjj => by
      dsimp only
      have : (j : Int) * f.number_of_months_in_between_deployments <
          (j' : Int) * f.number_of_months_in_between_deployments :=
        mul_lt_mul_of_pos_right (by exact_mod_cast hjj) hI
      omega)
    _ (by omega)]
  rfl

/-- With `carry_percent = 1/2` and a nonempty date series, the
waterfall fails (the unguarded catch-up division). -/
theorem waterfall_none (f : ClosedEndFund)
    (hI : 0 < f.number_of_months_in_between_deployments)
    (hdvd : f.number_of_months_of_deployment.emod f.number_of_months_in_between_deployments = 0)
    (hM : 0 < f.number_of_months_of_deployment)
    (hord : ¬ Date.lt f.deployment_start_date f.fund_start_date)
    (heomf : end_of_month_from_date f.fund_start_date = f.fund_start_date)
    (heomd : end_of_month_from_date f.deployment_start_date = f.deployment_start_date)
    (hL : 0 ≤ f.length_of_deployment_in_months)
    (hc : f.carry_percent = 1/2) :
    f.generate_proceeds_allocations_as_dict = none := by
  obtain ⟨hnd, hdep⟩ := generate_deployments_eq f hI hdvd hM
  have hprc := generate_proceeds_eq f hI hdvd hM
  have hcr := generate_capital_returns_eq f hI hdvd hM
  obtain ⟨L, hser, hpos⟩ := monthly_date_series_pos f hI hdvd hM hord heomf heomd hL
  unfold ClosedEndFund.generate_proceeds_allocations_as_dict
  rw [hdep, hprc, hcr, hser]
  show (seriesList (year_month_num f.fund_start_date) L).foldlM
    (waterfallStep f _ _) emptyWS = none
  cases hs : seriesList (year_month_num f.fund_start_date) L with
  | nil =>
    have := seriesList_length (year_month_num f.fund_start_date) L
    rw [hs] at this
    simp at this
    omega
  | cons d ds => exact foldlM_waterfallStep_none f _ _ hc d ds _

/-- Every row of `rowAt` is a `waterfallRow` at the corresponding
series date, for some pair of prior closing balances. -/
theorem rowAt_eq_row (f : ClosedEndFund) (dep prc : DictD) (base : Int) (j : ℕ) :
    ∃ pl pc : ℚ, rowAt f dep prc base j =
      waterfallRow f dep prc (end_of_month_from_int (base + (j : Int))) pl pc := by
  cases j with
  | zero => exact ⟨0, 0, rfl⟩
  | succ t => exact ⟨_, _, rfl⟩

theorem wsAt_lp_preferred_opening (f : ClosedEndFund) (dep prc : DictD) (base : Int) (L : ℕ) :
    (wsAt f dep prc base L).lp_preferred_opening = keyMapD
      (fun k => end_of_month_from_int (base + (k : Int)))
      (fun j => (rowAt f dep prc base j).lp_opening) L := rfl

theorem wsAt_lp_preferred_irr_growth (f : ClosedEndFund) (dep prc : DictD) (base : Int) (L : ℕ) :
    (wsAt f dep prc base L).lp_preferred_irr_growth = keyMapD
      (fun k => end_of_month_from_int (base + (k : Int)))
      (fun j => (rowAt f dep prc base j).lp_growth) L := rfl

theorem wsAt_lp_preferred_payments (f : ClosedEndFund) (dep prc : DictD) (base : Int) (L : ℕ) :
    (wsAt f dep prc base L).lp_preferred_payments = keyMapD
      (fun k => end_of_month_from_int (base + (k : Int)))
      (fun j => (rowAt f dep prc base j).lp_payment) L := rfl

theorem wsAt_lp_preferred_closing (f : ClosedEndFund) (dep prc : DictD) (base : Int) (L : ℕ) :
    (wsAt f dep prc base L).lp_preferred_closing = keyMapD
      (fun k => end_of_month_from_int (base + (k : Int)))
      (fun j => (rowAt f dep prc base j).lp_closing) L := rfl

theorem wsAt_catch_up_opening (f : ClosedEndFund) (dep prc : DictD) (base : Int) (L : ℕ) :
    (wsAt f dep prc base L).catch_up_opening = keyMapD
      (fun k => end_of_month_from_int (base + (k : Int)))
      (fun j => (rowAt f dep prc base j).cu_opening) L := rfl

theorem wsAt_catch_up_accruals (f : ClosedEndFund) (dep prc : DictD) (base : Int) (L : ℕ) :
    (wsAt f dep prc base L).catch_up_accruals = keyMapD
      (fun k => end_of_month_from_int (base + (k : Int)))
      (fun j => (rowAt f dep prc base j).cu_accrual) L := rfl

theorem wsAt_catch_up_payments_gp_share (f : ClosedEndFund) (dep prc : DictD) (base : Int) (L : ℕ) :
    (wsAt f dep prc base L).catch_up_payments_gp_share = keyMapD
      (fun k => end_of_month_from_int (base + (k : Int)))
      (fun j => (rowAt f dep prc base j).cu_gp) L := rfl

theorem wsAt_catch_up_payments_lp_share (f : ClosedEndFund) (dep prc : DictD) (base : Int) (L : ℕ) :
    (wsAt f dep prc base L).catch_up_payments_lp_share = keyMapD
      (fun k => end_of_month_from_int (base + (k : Int)))
      (fun j => (rowAt f dep prc base j).cu_lp) L := rfl

theorem wsAt_catch_up_closing (f : ClosedEndFund) (dep prc : DictD) (base : Int) (L : ℕ) :
    (wsAt f dep prc base L).catch_up_closing = keyMapD
      (fun k => end_of_month_from_int (base + (k : Int)))
      (fun j => (rowAt f dep prc base j).cu_closing) L := rfl

theorem wsAt_post_catch_up_payments_gp_share (f : ClosedEndFund) (dep prc : DictD) (base : Int) (L : ℕ) :
    (wsAt f dep prc base L).post_catch_up_payments_gp_share = keyMapD
      (fun k => end_of_month_from_int (base + (k : Int)))
      (fun j => (rowAt f dep prc base j).post_gp) L := rfl

theorem wsAt_post_catch_up_payments_lp_share (f : ClosedEndFund) (dep prc : DictD) (base : Int) (L : ℕ) :
    (wsAt f dep prc base L).post_catch_up_payments_lp_share = keyMapD
      (fun k => end_of_month_from_int (base + (k : Int)))
      (fun j => (rowAt f dep prc base j).post_lp) L := rfl

/-- A small fully-valid example configuration: quarterly deployments
over six months starting a quarter after the fund start, three-month
deployment length, 10% monthly IRR and 1% monthly hurdle. -/
def cfgA : ClosedEndFund :=
  { fund_name := "A"
    fund_start_date := ⟨2021, 3, 31⟩
    deployment_start_date := ⟨2021, 6, 30⟩
    irr_per_month := 1/10
    irr_hurdle_per_month := 1/100
    committed_capital := 100
    annual_mgmt_fee_rate := 1/200
    carry_percent := 1/5
    number_of_months_of_deployment := 6
    number_of_months_in_between_deployments := 3
    length_of_deployment_in_months := 3
    carry_catch_up := true }

/-- `cfgA` with zero months of deployment: it still passes all five
construction checks. -/
def cfgZeroMonths : ClosedEndFund :=
  { cfgA with number_of_months_of_deployment := 0 }

/-- `cfgA` with nine months of deployment, so that the third deployment
falls in December (a 31-day month reached from a 30-day month). -/
def cfgC : ClosedEndFund :=
  { cfgA with number_of_months_of_deployment := 9 }

/-- A deliberately tiny configuration: a single deployment, one-month
deployment length and a 1000% monthly IRR, so that the two-date series
exercises both waterfall branches (pure accrual at the first date, a
surplus with catch-up and post-catch-up payments at the second). -/
def cfgS : ClosedEndFund :=
  { fund_name := "S"
    fund_start_date := ⟨2021, 6, 30⟩
    deployment_start_date := ⟨2021, 6, 30⟩
    irr_per_month := 10
    irr_hurdle_per_month := 1/100
    committed_capital := 100
    annual_mgmt_fee_rate := 1/200
    carry_percent := 1/5
    number_of_months_of_deployment := 3
    number_of_months_in_between_deployments := 3
    length_of_deployment_in_months := 1
    carry_catch_up := true }

theorem seriesList_getD (base : Int) (L i : ℕ) (hi : i < L) :
    (seriesList base L).getD i ⟨0, 0, 0⟩ = end_of_month_from_int (base + (i : Int)) := by
  unfold seriesList
  rw [List.getD_eq_getElem?_getD]
  simp [List.getElem?_map, List.getElem?_range, hi]

/-- C7: snapping to month-end before a month shift with the snap flag
set commutes with shifting first (no snap) and snapping afterwards:
`add_n_months(end_of_month(d), n, true) = end_of_month(add_n_months(d, n, false))`
for every date `d` and every integer `n`. -/
theorem claim_C7_add_months_commutes (d : Date) (n : Int) :
    add_n_months (end_of_month_from_date d) n true =
      end_of_month_from_date (add_n_months d n false) := by
  have hR : year_month_num (add_n_months d n false) = year_month_num d + n := by
    unfold add_n_months
    simp only [Bool.false_eq_true, if_false]
    unfold year_month_num
    exact ymIntYear_mul_add_month _
  rw [add_n_months_true]
  unfold end_of_month_from_date
  rw [year_month_num_end_of_month_from_int, hR]

/-- C6 (amended): when `number_of_months_diff a b ≥ 0`,
`generate_monthly_date_series a b` has length `months_between(a,b) + 1`,
consists of month-end dates, starts at the month-end of `a`'s month,
ends at the month-end of `b`'s month, and is strictly increasing by
exactly one month per element.  (When `b`'s month precedes `a`'s the
code returns the empty list instead, see the counterexample.) -/
theorem claim_C6_monthly_series (a b : Date) (h : 0 ≤ number_of_months_diff a b) :
    ((generate_monthly_date_series a b).length : Int) = number_of_months_diff a b + 1 ∧
    (generate_monthly_date_series a b).getD 0 ⟨0, 0, 0⟩ = end_of_month_from_date a ∧
    (generate_monthly_date_series a b).getD
      ((generate_monthly_date_series a b).length - 1) ⟨0, 0, 0⟩ =
      end_of_month_from_date b ∧
    (∀ d ∈ generate_monthly_date_series a b, end_of_month_from_date d = d) ∧
    (∀ i : ℕ, i + 1 < (generate_monthly_date_series a b).length →
      Date.lt ((generate_monthly_date_series a b).getD i ⟨0, 0, 0⟩)
        ((generate_monthly_date_series a b).getD (i + 1) ⟨0, 0, 0⟩) ∧
      year_month_num ((generate_monthly_date_series a b).getD (i + 1) ⟨0, 0, 0⟩) =
        year_month_num ((generate_monthly_date_series a b).getD i ⟨0, 0, 0⟩) + 1) := by
  rw [generate_monthly_date_series_eq]
  have hlen : (seriesList (year_month_num a) ((number_of_months_diff a b + 1).toNat)).length =
      (number_of_months_diff a b + 1).toNat := seriesList_length _ _
  have hpos : 0 < (number_of_months_diff a b + 1).toNat := by omega
  refine ⟨?_, ?_, ?_, ?_, ?_⟩
  · rw [hlen]; omega
  · rw [seriesList_getD _ _ _ hpos]
    unfold end_of_month_from_date
    norm_num
  · rw [hlen, seriesList_getD _ _ _ (by omega)]
    unfold end_of_month_from_date
    congr 1
    unfold number_of_months_diff at h ⊢
    omega
  · intro d hd
    rw [mem_seriesList] at hd
    obtain ⟨k, hk, rfl⟩ := hd
    exact end_of_month_from_date_end_of_month_from_int _
  · intro i hi
    rw [hlen] at hi
    rw [seriesList_getD _ _ _ (by omega), seriesList_getD _ _ _ (by omega)]
    constructor
    · exact (end_of_month_from_int_lt_iff _ _).mpr (by push_cast; omega)
    · rw [year_month_num_end_of_month_from_int, year_month_num_end_of_month_from_int]
      push_cast
      omega

/-- C6 counterexample: for `a = 2021-05-31`, `b = 2021-03-31` (end
month before start month) the series is empty, so its length is not
`months_between(a,b) + 1 = -1` and it has no first or last element. -/
theorem claim_C6_counterexample :
    ¬ (((generate_monthly_date_series ⟨2021, 5, 31⟩ ⟨2021, 3, 31⟩).length : Int) =
      number_of_months_diff ⟨2021, 5, 31⟩ ⟨2021, 3, 31⟩ + 1) := by decide

theorem claim_C6_witness :
    0 ≤ number_of_months_diff ⟨2021, 1, 15⟩ ⟨2021, 4, 2⟩ ∧
    ((generate_monthly_date_series ⟨2021, 1, 15⟩ ⟨2021, 4, 2⟩).length : Int) =
      number_of_months_diff ⟨2021, 1, 15⟩ ⟨2021, 4, 2⟩ + 1 :=
  ⟨by decide, (claim_C6_monthly_series ⟨2021, 1, 15⟩ ⟨2021, 4, 2⟩ (by decide)).1⟩

/-- C4: construction validates in the fixed order (a) deployment start
not before fund start, (b) fund start month-end, (c) deployment start
month-end, (d) months of deployment divisible by the (nonzero)
interval, (e) committed capital positive; the first violated check
raises its own distinct `ClosedEndFundError` and no instance is
produced; only when all five pass is an instance returned, with the two
start dates normalized to month-end while the checks were evaluated
against the caller-supplied values. -/
theorem claim_C4_construction_order (fund_name : String)
    (fund_start_date deployment_start_date : Date)
    (irr_pm committed rate carry hurdle_pm : ℚ)
    (months interval len : Int) (cu : Bool) (hI : interval ≠ 0) :
    (Date.lt deployment_start_date fund_start_date →
      ClosedEndFund.init fund_name fund_start_date deployment_start_date
        irr_pm committed rate carry hurdle_pm months interval len cu =
        .configError .deploymentStartBeforeFundStart) ∧
    (¬ Date.lt deployment_start_date fund_start_date →
      end_of_month_from_date fund_start_date ≠ fund_start_date →
      ClosedEndFund.init fund_name fund_start_date deployment_start_date
        irr_pm committed rate carry hurdle_pm months interval len cu =
        .configError .fundStartNotEndOfMonth) ∧
    (¬ Date.lt deployment_start_date fund_start_date →
      end_of_month_from_date fund_start_date = fund_start_date →
      end_of_month_from_date deployment_start_date ≠ deployment_start_date →
      ClosedEndFund.init fund_name fund_start_date deployment_start_date
        irr_pm committed rate carry hurdle_pm months interval len cu =
        .configError .deploymentStartNotEndOfMonth) ∧
    (¬ Date.lt deployment_start_date fund_start_date →
      end_of_month_from_date fund_start_date = fund_start_date →
      end_of_month_from_date deployment_start_date = deployment_start_date →
      months.emod interval ≠ 0 →
      ClosedEndFund.init fund_name fund_start_date deployment_start_date
        irr_pm committed rate carry hurdle_pm months interval len cu =
        .configError .deploymentsNotWholeNumber) ∧
    (¬ Date.lt deployment_start_date fund_start_date →
      end_of_month_from_date fund_start_date = fund_start_date →
      end_of_month_from_date deployment_start_date = deployment_start_date →
      months.emod interval = 0 →
      committed ≤ 0 →
      ClosedEndFund.init fund_name fund_start_date deployment_start_date
        irr_pm committed rate carry hurdle_pm months interval len cu =
        .configError .committedCapitalNotPositive) ∧
    (¬ Date.lt deployment_start_date fund_start_date →
      end_of_month_from_date fund_start_date = fund_start_date →
      end_of_month_from_date deployment_start_date = deployment_start_date →
      months.emod interval = 0 →
      0 < committed →
      ClosedEndFund.init fund_name fund_start_date deployment_start_date
        irr_pm committed rate carry hurdle_pm months interval len cu =
        .ok { fund_name := fund_name
              fund_start_date := end_of_month_from_date fund_start_date
              deployment_start_date := end_of_month_from_date deployment_start_date
              irr_per_month := irr_pm
              irr_hurdle_per_month := hurdle_pm
              committed_capital := committed
              annual_mgmt_fee_rate := rate
              carry_percent := carry
              number_of_months_of_deployment := months
              number_of_months_in_between_deployments := interval
              length_of_deployment_in_months := len
              carry_catch_up := cu }) ∧
    ([InitError.deploymentStartBeforeFundStart, .fundStartNotEndOfMonth,
      .deploymentStartNotEndOfMonth, .deploymentsNotWholeNumber,
      .committedCapitalNotPositive] : List InitError).Nodup := by
  refine ⟨?_, ?_, ?_, ?_, ?_, ?_, by decide⟩
  · intro h1
    unfold ClosedEndFund.init
    rw [if_pos h1]
  · intro h1 h2
    unfold ClosedEndFund.init
    rw [if_neg h1, if_pos h2]
  · intro h1 h2 h3
    unfold ClosedEndFund.init
    rw [if_neg h1, if_neg (by simp [h2]), if_pos h3]
  · intro h1 h2 h3 h4
    unfold ClosedEndFund.init
    rw [if_neg h1, if_neg (by simp [h2]), if_neg (by simp [h3]), if_neg hI, if_pos h4]
  · intro h1 h2 h3 h4 h5
    unfold ClosedEndFund.init
    rw [if_neg h1, if_neg (by simp [h2]), if_neg (by simp [h3]), if_neg hI,
      if_neg (by simp [h4]), if_pos h5]
  · intro h1 h2 h3 h4 h5
    unfold ClosedEndFund.init
    rw [if_neg h1, if_neg (by simp [h2]), if_neg (by simp [h3]), if_neg hI,
      if_neg (by simp [h4]), if_neg (not_le.mpr h5)]

theorem claim_C4_witness :
    ((3 : Int) ≠ 0) ∧
    ClosedEndFund.init "F" ⟨2021, 3, 31⟩ ⟨2021, 2, 28⟩ 0 100 0 (1/5) 0 36 3 36 true =
      .configError .deploymentStartBeforeFundStart :=
  ⟨by decide,
    (claim_C4_construction_order "F" ⟨2021, 3, 31⟩ ⟨2021, 2, 28⟩
      0 100 0 (1/5) 0 36 3 36 true (by decide)).1 (by decide)⟩

/-- C8: with a zero deployment interval (and the three date checks
passing so that control reaches the divisibility check), construction
fails with the `ZeroDivisionError` escaping from `months % 0` in the
divisibility check itself, not with any `ClosedEndFundError` of the
validation taxonomy. -/
theorem claim_C8_zero_interval_division (fund_name : String)
    (fund_start_date deployment_start_date : Date)
    (irr_pm committed rate carry hurdle_pm : ℚ)
    (months len : Int) (cu : Bool)
    (hord : ¬ Date.lt deployment_start_date fund_start_date)
    (heomf : end_of_month_from_date fund_start_date = fund_start_date)
    (heomd : end_of_month_from_date deployment_start_date = deployment_start_date) :
    ClosedEndFund.init fund_name fund_start_date deployment_start_date
      irr_pm committed rate carry hurdle_pm months 0 len cu = .zeroDivisionError ∧
    ∀ e : InitError,
      ClosedEndFund.init fund_name fund_start_date deployment_start_date
        irr_pm committed rate carry hurdle_pm months 0 len cu ≠ .configError e := by
  have hmain : ClosedEndFund.init fund_name fund_start_date deployment_start_date
      irr_pm committed rate carry hurdle_pm months 0 len cu = .zeroDivisionError := by
    unfold ClosedEndFund.init
    rw [if_neg hord, if_neg (by simp [heomf]), if_neg (by simp [heomd]), if_pos rfl]
  exact ⟨hmain, fun e h => by rw [hmain] at h; exact InitResult.noConfusion h⟩

theorem claim_C8_witness :
    (¬ Date.lt (⟨2021, 6, 30⟩ : Date) ⟨2021, 3, 31⟩) ∧
    ClosedEndFund.init "F" ⟨2021, 3, 31⟩ ⟨2021, 6, 30⟩ 0 100 0 (1/5) 0 36 0 36 true =
      .zeroDivisionError :=
  ⟨by decide,
    (claim_C8_zero_interval_division "F" ⟨2021, 3, 31⟩ ⟨2021, 6, 30⟩
      0 100 0 (1/5) 0 36 36 true (by decide) (by decide) (by decide)).1⟩

/-- C3 (amended): on a validated config that also has positive months
of deployment, positive interval and nonnegative deployment length, all
schedule-generation operations are total, except that
`generate_proceeds_allocations_as_dict` fails — by the unguarded
catch-up division `carry_percent / (0.5 - carry_percent)` — exactly
when `carry_percent = 0.5`.  (Validation alone does not guarantee
totality: a validated config with zero months of deployment makes
`generate_deployments` itself divide by zero, see the
counterexample.) -/
theorem claim_C3_totality (f : ClosedEndFund) (hv : ValidFund f)
    (hM : 0 < f.number_of_months_of_deployment)
    (hI : 0 < f.number_of_months_in_between_deployments)
    (hL : 0 ≤ f.length_of_deployment_in_months) :
    (f.generate_deployments).isSome ∧
    (f.generate_proceeds).isSome ∧
    (f.generate_capital_returns).isSome ∧
    (f.generate_profits).isSome ∧
    (f.monthly_date_series).isSome ∧
    (f.generate_closing_invested_capital).isSome ∧
    (f.generate_fee_paying_capital).isSome ∧
    (f.generate_mgmt_fees).isSome ∧
    ((f.generate_proceeds_allocations_as_dict).isSome ↔ f.carry_percent ≠ 1/2) := by
  obtain ⟨hord, heomf, heomd, hIne, hdvd, hcc⟩ := hv
  obtain ⟨hnd, hdep⟩ := generate_deployments_eq f hI hdvd hM
  have hprc := generate_proceeds_eq f hI hdvd hM
  have hcr := generate_capital_returns_eq f hI hdvd hM
  obtain ⟨P, hP⟩ := generate_profits_isSome f hI hdvd hM
  obtain ⟨L, hser, _⟩ := monthly_date_series_shape f hI hdvd hM
  obtain ⟨depD, crD, L', _, _, _, hciv⟩ := generate_closing_invested_capital_eq f hI hdvd hM
  refine ⟨by rw [hdep]; rfl, by rw [hprc]; rfl, by rw [hcr]; rfl, by rw [hP]; rfl,
    by rw [hser]; rfl, by rw [hciv]; rfl,
    generate_fee_paying_isSome f hI hdvd hM,
    generate_mgmt_fees_isSome f hI hdvd hM, ?_, ?_⟩
  · intro hsome hc
    rw [waterfall_none f hI hdvd hM hord heomf heomd hL hc] at hsome
    simp at hsome
  · intro hc
    obtain ⟨dep, prc, L'', _, _, _, hwf⟩ := waterfall_eq f hI hdvd hM hc
    rw [hwf]
    rfl

set_option maxRecDepth 40000

/-- C3 counterexample: `cfgZeroMonths` passes all five construction
checks and has `carry_percent = 1/5 ≠ 0.5`, yet `generate_deployments`
already fails (`committed_capital / 0` after
`int(0 / 3) = 0` deployments), contradicting the claim that the carry
division is the only failure on a validated config. -/
theorem claim_C3_counterexample :
    ValidFund cfgZeroMonths ∧ cfgZeroMonths.carry_percent ≠ 1/2 ∧
      cfgZeroMonths.generate_deployments = none := by
  with_unfolding_all decide

theorem claim_C3_witness :
    (ValidFund cfgA ∧ 0 < cfgA.number_of_months_of_deployment ∧
      0 < cfgA.number_of_months_in_between_deployments ∧
      0 ≤ cfgA.length_of_deployment_in_months) ∧
    (cfgA.generate_profits).isSome ∧
    ((cfgA.generate_proceeds_allocations_as_dict).isSome ↔ cfgA.carry_percent ≠ 1/2) :=
  ⟨⟨by with_unfolding_all decide, by decide, by decide, by decide⟩,
    (claim_C3_totality cfgA (by with_unfolding_all decide) (by decide) (by decide)
      (by decide)).2.2.2.1,
    (claim_C3_totality cfgA (by with_unfolding_all decide) (by decide) (by decide)
      (by decide)).2.2.2.2.2.2.2.2⟩

/-- C2 (amended): on a valid config with positive months of deployment
and positive interval, `generate_deployments` returns exactly
`num_deployments = months_of_deployment / interval_months` entries,
each of value `committed_capital / num_deployments`, the `k`-th entry
keyed at `add_n_months(deployment_start, k * interval_months)` with the
source's default `end_of_month=True` (not `end_of_month=False` as the
claim stated, see the counterexample), and the values sum to
`committed_capital`. -/
theorem claim_C2_deployments (f : ClosedEndFund) (hv : ValidFund f)
    (hM : 0 < f.number_of_months_of_deployment)
    (hI : 0 < f.number_of_months_in_between_deployments) :
    0 < numDeployments f ∧
    f.generate_deployments = some (deploymentsOr f) ∧
    (deploymentsOr f).length = (numDeployments f).toNat ∧
    (∀ k : ℕ, k < (numDeployments f).toNat →
      (deploymentsOr f).getD k (⟨0, 0, 0⟩, 0) =
        (add_n_months f.deployment_start_date
            ((k : Int) * f.number_of_months_in_between_deployments) true,
          f.committed_capital / (numDeployments f : ℚ))) ∧
    ((deploymentsOr f).map Prod.snd).sum = f.committed_capital := by
  obtain ⟨hord, heomf, heomd, hIne, hdvd, hcc⟩ := hv
  obtain ⟨hnd, hdep⟩ := generate_deployments_eq f hI hdvd hM
  have hD : deploymentsOr f = keyMapD
      (fun k => end_of_month_from_int (year_month_num f.deployment_start_date +
        (k : Int) * f.number_of_months_in_between_deployments))
      (fun _ => f.committed_capital / (numDeployments f : ℚ))
      (numDeployments f).toNat := by
    rw [deploymentsOr, hdep]
    rfl
  refine ⟨hnd, by rw [hdep, hD], ?_, ?_, ?_⟩
  · rw [hD]
    unfold keyMapD
    rw [List.length_map, List.length_range]
  · intro k hk
    rw [hD]
    unfold keyMapD
    rw [List.getD_eq_getElem?_getD]
    simp only [List.getElem?_map, List.getElem?_range, hk, if_pos, Option.map_some',
      Option.getD_some]
    rw [add_n_months_true]
  · rw [hD]
    unfold keyMapD
    rw [List.map_map]
    show (List.map (fun _ => f.committed_capital / (numDeployments f : ℚ))
      (List.range (numDeployments f).toNat)).sum = f.committed_capital
    rw [List.map_const', List.length_range, List.sum_replicate, nsmul_eq_mul]
    have hcast : (((numDeployments f).toNat : ℕ) : ℚ) = ((numDeployments f : Int) : ℚ) := by
      have h2 := Int.toNat_of_nonneg (le_of_lt hnd)
      exact_mod_cast congrArg (fun z : Int => (z : ℚ)) h2
    have hne : ((numDeployments f : Int) : ℚ) ≠ 0 := by
      exact_mod_cast ne_of_gt hnd
    rw [hcast]
    field_simp

/-- C2 counterexample: for `cfgC` (deployment start 2021-06-30,
quarterly, nine months of deployment) the claim's key
`add_n_months(deployment_start, 2 * 3, end_of_month=False) = 2021-12-30`
holds no entry; the third deployment is keyed at the month-end
2021-12-31 instead, because `generate_deployments` uses the default
`end_of_month=True`. -/
theorem claim_C2_counterexample :
    ValidFund cfgC ∧
    add_n_months cfgC.deployment_start_date
      ((2 : Int) * cfgC.number_of_months_in_between_deployments) false =
      ⟨2021, 12, 30⟩ ∧
    cfgC.generate_deployments.bind (fun m => dlookup ⟨2021, 12, 30⟩ m) = none ∧
    cfgC.generate_deployments.bind (fun m => dlookup ⟨2021, 12, 31⟩ m) =
      some (cfgC.committed_capital / 3) := by
  with_unfolding_all decide

theorem claim_C2_witness :
    (ValidFund cfgA ∧ 0 < cfgA.number_of_months_of_deployment ∧
      0 < cfgA.number_of_months_in_between_deployments) ∧
    ((deploymentsOr cfgA).map Prod.snd).sum = cfgA.committed_capital ∧
    (deploymentsOr cfgA).length = (numDeployments cfgA).toNat :=
  ⟨⟨by with_unfolding_all decide, by decide, by decide⟩,
    (claim_C2_deployments cfgA (by with_unfolding_all decide) (by decide)
      (by decide)).2.2.2.2,
    (claim_C2_deployments cfgA (by with_unfolding_all decide) (by decide)
      (by decide)).2.2.1⟩

/-- Common unpacking for the per-date waterfall claims: on a valid
config with a positive whole number of deployments and carry away from
one half, every date of the monthly series is the `j`-th month-end and
the waterfall output is the `rowAt` table. -/
theorem waterfall_lookup_setup (f : ClosedEndFund) (hv : ValidFund f)
    (hM : 0 < f.number_of_months_of_deployment)
    (hI : 0 < f.number_of_months_in_between_deployments)
    (hc : f.carry_percent ≠ 1/2)
    (d : Date) (hd : d ∈ seriesOrNil f) :
    ∃ (dep prc : DictD) (L j : ℕ), j < L ∧
      f.generate_deployments = some dep ∧
      f.generate_proceeds = some prc ∧
      proceedsOr f = prc ∧
      seriesOrNil f = seriesList (year_month_num f.fund_start_date) L ∧
      d = end_of_month_from_int (year_month_num f.fund_start_date + (j : Int)) ∧
      f.generate_proceeds_allocations_as_dict = some (waterfallOr f) ∧
      waterfallOr f = wsAt f dep prc (year_month_num f.fund_start_date) L := by
  obtain ⟨hord, heomf, heomd, hIne, hdvd, hcc⟩ := hv
  obtain ⟨dep, prc, L, hdep, hprc, hser, hwf⟩ := waterfall_eq f hI hdvd hM hc
  have hsOr : seriesOrNil f = seriesList (year_month_num f.fund_start_date) L := by
    rw [seriesOrNil, hser]
    rfl
  have hpOr : proceedsOr f = prc := by
    rw [proceedsOr, hprc]
    rfl
  have hwOr : waterfallOr f = wsAt f dep prc (year_month_num f.fund_start_date) L := by
    rw [waterfallOr, hwf]
    rfl
  rw [hsOr, mem_seriesList] at hd
  obtain ⟨j, hj, hdj⟩ := hd
  exact ⟨dep, prc, L, j, hj, hdep, hprc, hpOr, hsOr, hdj, by rw [hwf, hwOr], hwOr⟩

/-- C1: for every valid config (positive whole number of deployments,
carry away from the unguarded 0.5) and every date of the monthly date
series, the five payment schedules of
`generate_proceeds_allocations_as_dict` sum exactly to
`proceeds.get(d, 0)`: every proceeds amount is fully allocated, none
lost or duplicated. -/
theorem claim_C1_full_allocation (f : ClosedEndFund) (hv : ValidFund f)
    (hM : 0 < f.number_of_months_of_deployment)
    (hI : 0 < f.number_of_months_in_between_deployments)
    (hc : f.carry_percent ≠ 1/2)
    (d : Date) (hd : d ∈ seriesOrNil f) :
    f.generate_proceeds_allocations_as_dict = some (waterfallOr f) ∧
    dictGet (waterfallOr f).lp_preferred_payments d 0 +
      dictGet (waterfallOr f).catch_up_payments_gp_share d 0 +
      dictGet (waterfallOr f).catch_up_payments_lp_share d 0 +
      dictGet (waterfallOr f).post_catch_up_payments_gp_share d 0 +
      dictGet (waterfallOr f).post_catch_up_payments_lp_share d 0 =
      dictGet (proceedsOr f) d 0 := by
  obtain ⟨dep, prc, L, j, hj, hdep, hprc, hpOr, hsOr, hdj, hwfOr, hwOr⟩ :=
    waterfall_lookup_setup f hv hM hI hc d hd
  refine ⟨hwfOr, ?_⟩
  rw [hwOr, hpOr, hdj]
  rw [wsAt_lp_preferred_payments, wsAt_catch_up_payments_gp_share,
    wsAt_catch_up_payments_lp_share, wsAt_post_catch_up_payments_gp_share,
    wsAt_post_catch_up_payments_lp_share]
  rw [dictGet_keyMapD_at _ _ hj, dictGet_keyMapD_at _ _ hj, dictGet_keyMapD_at _ _ hj,
    dictGet_keyMapD_at _ _ hj, dictGet_keyMapD_at _ _ hj]
  obtain ⟨pl, pc, hrow⟩ := rowAt_eq_row f dep prc (year_month_num f.fund_start_date) j
  rw [hrow]
  exact waterfallRow_payments_sum f dep prc _ pl pc

theorem claim_C1_witness :
    (ValidFund cfgS ∧ 0 < cfgS.number_of_months_of_deployment ∧
      0 < cfgS.number_of_months_in_between_deployments ∧
      cfgS.carry_percent ≠ 1/2 ∧ (⟨2021, 7, 31⟩ : Date) ∈ seriesOrNil cfgS) ∧
    dictGet (waterfallOr cfgS).lp_preferred_payments ⟨2021, 7, 31⟩ 0 +
      dictGet (waterfallOr cfgS).catch_up_payments_gp_share ⟨2021, 7, 31⟩ 0 +
      dictGet (waterfallOr cfgS).catch_up_payments_lp_share ⟨2021, 7, 31⟩ 0 +
      dictGet (waterfallOr cfgS).post_catch_up_payments_gp_share ⟨2021, 7, 31⟩ 0 +
      dictGet (waterfallOr cfgS).post_catch_up_payments_lp_share ⟨2021, 7, 31⟩ 0 =
      dictGet (proceedsOr cfgS) ⟨2021, 7, 31⟩ 0 :=
  ⟨⟨by with_unfolding_all decide, by decide, by decide, by with_unfolding_all decide,
      by with_unfolding_all decide⟩,
    (claim_C1_full_allocation cfgS (by with_unfolding_all decide) (by decide) (by decide)
      (by with_unfolding_all decide) ⟨2021, 7, 31⟩ (by with_unfolding_all decide)).2⟩

/-- C5: in every waterfall step with a surplus over the LP-preferred
payment, the catch-up closing balance is
`opening + accrual - gp_share` (only the GP half of the catch-up
payment reduces the tracked balance, though both halves are paid out);
in every step without a surplus it is `opening + accrual` and all four
catch-up and post-catch-up payment fields for that date are zero. -/
theorem claim_C5_catchup_balance (f : ClosedEndFund) (hv : ValidFund f)
    (hM : 0 < f.number_of_months_of_deployment)
    (hI : 0 < f.number_of_months_in_between_deployments)
    (hc : f.carry_percent ≠ 1/2)
    (d : Date) (hd : d ∈ seriesOrNil f) :
    f.generate_proceeds_allocations_as_dict = some (waterfallOr f) ∧
    (dictGet (proceedsOr f) d 0 > dictGet (waterfallOr f).lp_preferred_payments d 0 →
      dictGet (waterfallOr f).catch_up_closing d 0 =
        dictGet (waterfallOr f).catch_up_opening d 0 +
          dictGet (waterfallOr f).catch_up_accruals d 0 -
          dictGet (waterfallOr f).catch_up_payments_gp_share d 0) ∧
    (¬ dictGet (proceedsOr f) d 0 > dictGet (waterfallOr f).lp_preferred_payments d 0 →
      dictGet (waterfallOr f).catch_up_closing d 0 =
        dictGet (waterfallOr f).catch_up_opening d 0 +
          dictGet (waterfallOr f).catch_up_accruals d 0 ∧
      dictGet (waterfallOr f).catch_up_payments_gp_share d 0 = 0 ∧
      dictGet (waterfallOr f).catch_up_payments_lp_share d 0 = 0 ∧
      dictGet (waterfallOr f).post_catch_up_payments_gp_share d 0 = 0 ∧
      dictGet (waterfallOr f).post_catch_up_payments_lp_share d 0 = 0) := by
  obtain ⟨dep, prc, L, j, hj, hdep, hprc, hpOr, hsOr, hdj, hwfOr, hwOr⟩ :=
    waterfall_lookup_setup f hv hM hI hc d hd
  refine ⟨hwfOr, ?_⟩
  rw [hwOr, hpOr, hdj]
  rw [wsAt_lp_preferred_payments, wsAt_catch_up_closing, wsAt_catch_up_opening,
    wsAt_catch_up_accruals, wsAt_catch_up_payments_gp_share,
    wsAt_catch_up_payments_lp_share, wsAt_post_catch_up_payments_gp_share,
    wsAt_post_catch_up_payments_lp_share]
  rw [dictGet_keyMapD_at _ _ hj, dictGet_keyMapD_at _ _ hj, dictGet_keyMapD_at _ _ hj,
    dictGet_keyMapD_at _ _ hj, dictGet_keyMapD_at _ _ hj, dictGet_keyMapD_at _ _ hj,
    dictGet_keyMapD_at _ _ hj, dictGet_keyMapD_at _ _ hj]
  obtain ⟨pl, pc, hrow⟩ := rowAt_eq_row f dep prc (year_month_num f.fund_start_date) j
  rw [hrow]
  exact waterfallRow_catchup f dep prc _ pl pc

set_option maxHeartbeats 1000000 in
theorem claim_C5_witness :
    (ValidFund cfgS ∧ 0 < cfgS.number_of_months_of_deployment ∧
      0 < cfgS.number_of_months_in_between_deployments ∧
      cfgS.carry_percent ≠ 1/2 ∧ (⟨2021, 7, 31⟩ : Date) ∈ seriesOrNil cfgS) ∧
    dictGet (proceedsOr cfgS) ⟨2021, 7, 31⟩ 0 >
      dictGet (waterfallOr cfgS).lp_preferred_payments ⟨2021, 7, 31⟩ 0 ∧
    dictGet (waterfallOr cfgS).catch_up_closing ⟨2021, 7, 31⟩ 0 =
      dictGet (waterfallOr cfgS).catch_up_opening ⟨2021, 7, 31⟩ 0 +
        dictGet (waterfallOr cfgS).catch_up_accruals ⟨2021, 7, 31⟩ 0 -
        dictGet (waterfallOr cfgS).catch_up_payments_gp_share ⟨2021, 7, 31⟩ 0 :=
  ⟨⟨by with_unfolding_all decide, by decide, by decide, by with_unfolding_all decide,
      by with_unfolding_all decide⟩,
    by with_unfolding_all decide,
    (claim_C5_catchup_balance cfgS (by with_unfolding_all decide) (by decide) (by decide)
        (by with_unfolding_all decide) ⟨2021, 7, 31⟩ (by with_unfolding_all decide)).2.1
      (by with_unfolding_all decide)⟩

/-- C9: on every valid config (positive whole number of deployments,
carry away from 0.5) with a nonnegative monthly hurdle rate, the
LP-preferred closing balance is nonnegative at every date of the
monthly date series. -/
theorem claim_C9_lp_closing_nonneg (f : ClosedEndFund) (hv : ValidFund f)
    (hM : 0 < f.number_of_months_of_deployment)
    (hI : 0 < f.number_of_months_in_between_deployments)
    (hc : f.carry_percent ≠ 1/2)
    (hh : 0 ≤ f.irr_hurdle_per_month)
    (d : Date) (hd : d ∈ seriesOrNil f) :
    f.generate_proceeds_allocations_as_dict = some (waterfallOr f) ∧
    0 ≤ dictGet (waterfallOr f).lp_preferred_closing d 0 := by
  obtain ⟨dep, prc, L, j, hj, hdep, hprc, hpOr, hsOr, hdj, hwfOr, hwOr⟩ :=
    waterfall_lookup_setup f hv hM hI hc d hd
  refine ⟨hwfOr, ?_⟩
  rw [hwOr, hdj, wsAt_lp_preferred_closing, dictGet_keyMapD_at _ _ hj]
  obtain ⟨pl, pc, hrow⟩ := rowAt_eq_row f dep prc (year_month_num f.fund_start_date) j
  rw [hrow]
  exact waterfallRow_lp_closing_nonneg f dep prc _ pl pc

set_option maxHeartbeats 1000000 in
theorem claim_C9_witness :
    (ValidFund cfgS ∧ 0 < cfgS.number_of_months_of_deployment ∧
      0 < cfgS.number_of_months_in_between_deployments ∧
      cfgS.carry_percent ≠ 1/2 ∧ 0 ≤ cfgS.irr_hurdle_per_month ∧
      (⟨2021, 7, 31⟩ : Date) ∈ seriesOrNil cfgS) ∧
    0 ≤ dictGet (waterfallOr cfgS).lp_preferred_closing ⟨2021, 7, 31⟩ 0 :=
  ⟨⟨by with_unfolding_all decide, by decide, by decide, by with_unfolding_all decide,
      by with_unfolding_all decide, by with_unfolding_all decide⟩,
    (claim_C9_lp_closing_nonneg cfgS (by with_unfolding_all decide) (by decide) (by decide)
      (by with_unfolding_all decide) (by with_unfolding_all decide) ⟨2021, 7, 31⟩
      (by with_unfolding_all decide)).2⟩

/-- C10: (1) on a month-end date, `add_n_months(d, -1)` with the default
`end_of_month=True` is exactly the preceding month-end; consequently
(2) in the closing-invested-capital recurrence the prior-period lookup
`closing.get(add_n_months(date, -1), 0)` retrieves the closing balance
of the immediately preceding series element, falling back to `0` only
at the series head, and (3) likewise the waterfall's LP-preferred
opening balance is the preceding element's closing balance, `0` at the
head. -/
theorem claim_C10_prior_period_lookup :
    (∀ d : Date, end_of_month_from_date d = d →
      add_n_months d (-1) = end_of_month_from_int (year_month_num d - 1)) ∧
    (∀ f : ClosedEndFund, ValidFund f →
      0 < f.number_of_months_of_deployment →
      0 < f.number_of_months_in_between_deployments →
      ∀ i : ℕ, i < (seriesOrNil f).length →
        f.generate_closing_invested_capital = some (civOr f) ∧
        dictGet (civOr f) ((seriesOrNil f).getD i ⟨0, 0, 0⟩) 0 =
          (if i = 0 then 0 else
            dictGet (civOr f) ((seriesOrNil f).getD (i - 1) ⟨0, 0, 0⟩) 0) +
          dictGet (deploymentsOr f) ((seriesOrNil f).getD i ⟨0, 0, 0⟩) 0 -
          dictGet (capitalReturnsOr f) ((seriesOrNil f).getD i ⟨0, 0, 0⟩) 0) ∧
    (∀ f : ClosedEndFund, ValidFund f →
      0 < f.number_of_months_of_deployment →
      0 < f.number_of_months_in_between_deployments →
      f.carry_percent ≠ 1/2 →
      ∀ i : ℕ, i < (seriesOrNil f).length →
        dictGet (waterfallOr f).lp_preferred_opening
          ((seriesOrNil f).getD i ⟨0, 0, 0⟩) 0 =
          (if i = 0 then 0 else
            dictGet (waterfallOr f).lp_preferred_closing
              ((seriesOrNil f).getD (i - 1) ⟨0, 0, 0⟩) 0)) := by
  refine ⟨?_, ?_, ?_⟩
  · intro d hme
    rw [add_n_months_true]
    exact congrArg end_of_month_from_int (by ring)
  · intro f hv hM hI i hi
    obtain ⟨hord, heomf, heomd, hIne, hdvd, hcc⟩ := hv
    obtain ⟨dep, cr, L, hdep, hcr, hser, hciv⟩ :=
      generate_closing_invested_capital_eq f hI hdvd hM
    have hsOr : seriesOrNil f = seriesList (year_month_num f.fund_start_date) L := by
      rw [seriesOrNil, hser]
      rfl
    have hcivOr : civOr f = keyMapD
        (fun k => end_of_month_from_int (year_month_num f.fund_start_date + (k : Int)))
        (civVal dep cr (year_month_num f.fund_start_date)) L := by
      rw [civOr, hciv]
      rfl
    have hdepOr : deploymentsOr f = dep := by
      rw [deploymentsOr, hdep]
      rfl
    have hcrOr : capitalReturnsOr f = cr := by
      rw [capitalReturnsOr, hcr]
      rfl
    have hiL : i < L := by
      rw [hsOr, seriesList_length] at hi
      exact hi
    refine ⟨by rw [hciv, hcivOr], ?_⟩
    rw [hsOr, hcivOr, hdepOr, hcrOr, seriesList_getD _ _ _ hiL,
      dictGet_keyMapD_at _ _ hiL]
    cases i with
    | zero =>
      rw [if_pos rfl, civVal]
      ring
    | succ t =>
      rw [if_neg (Nat.succ_ne_zero t)]
      simp only [Nat.add_sub_cancel]
      rw [seriesList_getD _ _ _ (by omega), dictGet_keyMapD_at _ _ (by omega : t < L),
        civVal]
  · intro f hv hM hI hc i hi
    obtain ⟨hord, heomf, heomd, hIne, hdvd, hcc⟩ := hv
    obtain ⟨dep, prc, L, hdep, hprc, hser, hwf⟩ := waterfall_eq f hI hdvd hM hc
    have hsOr : seriesOrNil f = seriesList (year_month_num f.fund_start_date) L := by
      rw [seriesOrNil, hser]
      rfl
    have hwOr : waterfallOr f = wsAt f dep prc (year_month_num f.fund_start_date) L := by
      rw [waterfallOr, hwf]
      rfl
    have hiL : i < L := by
      rw [hsOr, seriesList_length] at hi
      exact hi
    rw [hsOr, hwOr, wsAt_lp_preferred_opening, seriesList_getD _ _ _ hiL,
      dictGet_keyMapD_at _ _ hiL]
    cases i with
    | zero =>
      rw [if_pos rfl, rowAt]
      exact waterfallRow_lp_opening f dep prc _ 0 0
    | succ t =>
      rw [if_neg (Nat.succ_ne_zero t)]
      simp only [Nat.add_sub_cancel]
      rw [wsAt_lp_preferred_closing, seriesList_getD _ _ _ (by omega),
        dictGet_keyMapD_at _ _ (by omega : t < L), rowAt]
      exact waterfallRow_lp_opening f dep prc _ _ _

set_option maxHeartbeats 1000000 in
theorem claim_C10_witness :
    (end_of_month_from_date ⟨2021, 6, 30⟩ = ⟨2021, 6, 30⟩ ∧
      add_n_months ⟨2021, 6, 30⟩ (-1) =
        end_of_month_from_int (year_month_num ⟨2021, 6, 30⟩ - 1)) ∧
    ((1 : ℕ) < (seriesOrNil cfgS).length) ∧
    dictGet (civOr cfgS) ((seriesOrNil cfgS).getD 1 ⟨0, 0, 0⟩) 0 =
      (if (1 : ℕ) = 0 then 0 else
        dictGet (civOr cfgS) ((seriesOrNil cfgS).getD (1 - 1) ⟨0, 0, 0⟩) 0) +
      dictGet (deploymentsOr cfgS) ((seriesOrNil cfgS).getD 1 ⟨0, 0, 0⟩) 0 -
      dictGet (capitalReturnsOr cfgS) ((seriesOrNil cfgS).getD 1 ⟨0, 0, 0⟩) 0 ∧
    dictGet (waterfallOr cfgS).lp_preferred_opening
        ((seriesOrNil cfgS).getD 1 ⟨0, 0, 0⟩) 0 =
      (if (1 : ℕ) = 0 then 0 else
        dictGet (waterfallOr cfgS).lp_preferred_closing
          ((seriesOrNil cfgS).getD (1 - 1) ⟨0, 0, 0⟩) 0) :=
  ⟨⟨by decide, claim_C10_prior_period_lookup.1 ⟨2021, 6, 30⟩ (by decide)⟩,
    by with_unfolding_all decide,
    (claim_C10_prior_period_lookup.2.1 cfgS (by with_unfolding_all decide) (by decide)
      (by decide) 1 (by with_unfolding_all decide)).2,
    claim_C10_prior_period_lookup.2.2 cfgS (by with_unfolding_all decide) (by decide)
      (by decide) (by with_unfolding_all decide) 1 (by with_unfolding_all decide)⟩
